import Mathlib

/-!
# Verification of the k-ary folding argument repository

Shallow embedding of `src/inner_product_proof.rs`, `src/r1cs/proof.rs` and
`src/r1cs/verifier.rs`, together with models of the external collaborators
(scalar field, Ristretto group, Fiat-Shamir transcript, error taxonomy)
that the repository uses but whose sources are outside `src/`.

The Ristretto group is cyclic of prime order ℓ, so both scalars and points
are modelled as `ZMod ℓ`; scalar multiplication of a point is ring
multiplication under the isomorphism that sends a fixed generator to `1`.
Rust `usize` values are `Nat` with explicit wrap at `2^64` where the source
can overflow, and `Vec::with_capacity` calls that would exceed
`isize::MAX` bytes are modelled as a panic (`Option.none` outcome),
matching the documented Rust behaviour.
-/

set_option maxRecDepth 10000
set_option synthInstance.maxSize 4000

/-- The order ℓ of the Ristretto255 group,
`2^252 + 27742317777372353535851937790883648493`. -/
def groupOrder : Nat := 7237005577332262213973186563042994240857116359379907606001950938285454250989

/-- Modelled from the spec: a scalar is an element of the field modulo the
group order (§3). -/
abbrev Scalar := ZMod groupOrder

/-- Modelled from the spec: a group element of the cyclic group of prime
order ℓ, represented by its discrete logarithm with respect to a fixed
generator (§3). `RistrettoPoint::default()` is the identity, i.e. `0`. -/
abbrev RistrettoPoint := ZMod groupOrder

/-- A byte. -/
abbrev Byte := Fin 256

/-- Little-endian encoding of a natural number into `len` bytes. -/
def natToLE : Nat → Nat → List Byte
  | 0, _ => []
  | len + 1, v => ⟨v % 256, Nat.mod_lt _ (by norm_num)⟩ :: natToLE len (v / 256)

/-- Little-endian decoding of a byte list into a natural number. -/
def leToNat : List Byte → Nat
  | [] => 0
  | b :: bs => b.val + 256 * leToNat bs

theorem natToLE_length (len v : Nat) : (natToLE len v).length = len := by
  induction len generalizing v with
  | zero => rfl
  | succ n ih => simp [natToLE, ih]

theorem leToNat_natToLE (len v : Nat) (h : v < 256 ^ len) :
    leToNat (natToLE len v) = v := by
  induction len generalizing v with
  | zero => simpa [natToLE, leToNat] using (Nat.lt_one_iff.mp (by simpa using h)).symm
  | succ n ih =>
    have hlt : v / 256 < 256 ^ n := by
      rw [Nat.div_lt_iff_lt_mul (by norm_num)]
      calc v < 256 ^ (n + 1) := h
        _ = 256 ^ n * 256 := by ring
    simp [natToLE, leToNat, ih _ hlt]
    omega

theorem take_natToLE (m len v : Nat) (h : m ≤ len) :
    (natToLE len v).take m = natToLE m v := by
  induction m generalizing len v with
  | zero => simp [natToLE]
  | succ m ih =>
    cases len with
    | zero => omega
    | succ n => simp [natToLE, ih n (v / 256) (by omega)]

theorem drop_append_of_length {α : Type} (xs ys : List α) (n : Nat)
    (h : xs.length = n) : (xs ++ ys).drop n = ys := by
  subst h; simp

theorem take_append_of_length {α : Type} (xs ys : List α) (n : Nat)
    (h : xs.length = n) : (xs ++ ys).take n = xs := by
  subst h; simp

/-- ASCII bytes of a (static) label string. -/
def strBytes (s : String) : List Byte :=
  s.data.map (fun c => ⟨c.toNat % 256, Nat.mod_lt _ (by norm_num)⟩)

/-- Modelled from the spec: canonical 32-byte little-endian encoding of a
scalar (§3, §6). -/
def Scalar.as_bytes (s : Scalar) : List Byte := natToLE 32 s.val

/-- Modelled from the spec: canonical scalar decoding; rejects non-canonical
representations, i.e. 32-byte values `≥ ℓ` (§3). -/
def Scalar.from_canonical_bytes (b : List Byte) : Option Scalar :=
  if leToNat b < groupOrder then some ((leToNat b : Nat) : Scalar) else none

/-- A compressed Ristretto point: 32 bytes that may fail to decompress. -/
abbrev CompressedRistretto := List Byte

/-- Modelled from the spec: compression to a canonical 32-byte encoding (§3).
Injective, and its image is exactly the set of decompressable encodings. -/
def RistrettoPoint.compress (p : RistrettoPoint) : CompressedRistretto :=
  natToLE 32 p.val

/-- Modelled from the spec: decompression, which fails on invalid
encodings (§3). -/
def CompressedRistretto.decompress (c : CompressedRistretto) : Option RistrettoPoint :=
  if c.length = 32 ∧ leToNat c < groupOrder then some ((leToNat c : Nat) : RistrettoPoint)
  else none

/-- `RistrettoPoint::vartime_multiscalar_mul`: the multiscalar multiplication
Σ sᵢ·Pᵢ. Call sites pass iterators of equal length. -/
def vartime_multiscalar_mul (ss : List Scalar) (ps : List RistrettoPoint) : RistrettoPoint :=
  (List.zipWith (fun s p => s * p) ss ps).sum

/-- `inner_product` from `inner_product_proof.rs` (the source panics on a
length mismatch; every call site passes equal-length slices). -/
def inner_product (a b : List Scalar) : Scalar :=
  (List.zipWith (fun x y => x * y) a b).sum

/-- Binary exponentiation with explicit fuel; one fuel unit per halving of
the exponent, so `e < 2 ^ fuel` gives the exact power. -/
def powFuel : Nat → Scalar → Nat → Scalar
  | 0, _, _ => 1
  | fuel + 1, b, e =>
    if e = 0 then 1 else (if e % 2 = 1 then b else 1) * powFuel fuel (b * b) (e / 2)

theorem powFuel_eq_pow (fuel : Nat) (b : Scalar) (e : Nat) (h : e < 2 ^ fuel) :
    powFuel fuel b e = b ^ e := by
  induction fuel generalizing b e with
  | zero => interval_cases e; simp [powFuel]
  | succ n ih =>
    by_cases he : e = 0
    · simp [powFuel, he]
    · have hlt : e / 2 < 2 ^ n := by
        have h2 : (2 : Nat) ^ (n + 1) = 2 ^ n * 2 := by ring
        rw [Nat.div_lt_iff_lt_mul (by norm_num : (0 : Nat) < 2)]
        omega
      have hbb : (b * b) ^ (e / 2) = b ^ (e / 2 + e / 2) := by
        rw [pow_add]; exact mul_pow b b (e / 2)
      simp only [powFuel, if_neg he]
      rw [ih (b * b) (e / 2) hlt, hbb]
      rcases Nat.mod_two_eq_zero_or_one e with hm | hm
      · rw [if_neg (by omega), one_mul]
        congr 1
        omega
      · rw [if_pos hm]
        calc b * b ^ (e / 2 + e / 2) = b ^ (e / 2 + e / 2) * b := mul_comm _ _
          _ = b ^ (e / 2 + e / 2 + 1) := (pow_succ _ _).symm
          _ = b ^ e := by congr 1; omega

/-- `scalar_pow` from `inner_product_proof.rs` (binary exponentiation on a
`u64` exponent). -/
def scalar_pow (base : Scalar) (exp : Nat) : Scalar := powFuel 64 base exp

theorem scalar_pow_eq (base : Scalar) (exp : Nat) (h : exp < 2 ^ 64) :
    scalar_pow base exp = base ^ exp := powFuel_eq_pow 64 base exp h

/-- Modelled from the spec: `Scalar::invert`, computed as `x^(ℓ-2)`
(Fermat inversion in the external scalar library). -/
def Scalar.invert (x : Scalar) : Scalar := powFuel 253 x (groupOrder - 2)

/-- Modelled from the spec: `Scalar::batch_invert` replaces every element by
its inverse and returns the product of all the inverses. -/
def batch_invert (xs : List Scalar) : List Scalar × Scalar :=
  (xs.map Scalar.invert, (xs.map Scalar.invert).prod)

/-- `reconstruct_round_lengths` inner loop: each step pads the current
length to the next multiple of `k` and divides by `k`. -/
def rrlGo (k : Nat) : Nat → Nat → List Nat
  | _, 0 => []
  | n, d + 1 =>
    let rem := n % k
    let pad := if rem = 0 then 0 else k - rem
    let n2 := (n + pad) / k
    n2 :: rrlGo k n2 d

/-- `reconstruct_round_lengths` from `inner_product_proof.rs`. -/
def reconstruct_round_lengths (n k d : Nat) : List Nat :=
  n :: rrlGo k n d

/-- One pad-and-divide step of the fold-length recurrence. -/
def padDivStep (k n : Nat) : Nat :=
  (n + (if n % k = 0 then 0 else k - n % k)) / k

theorem rrlGo_length (k n d : Nat) : (rrlGo k n d).length = d := by
  induction d generalizing n with
  | zero => rfl
  | succ m ih => simp [rrlGo, ih]

theorem rrlGo_cons (k n d : Nat) :
    rrlGo k n (d + 1) = padDivStep k n :: rrlGo k (padDivStep k n) d := rfl

theorem reconstruct_round_lengths_getD (n k d : Nat) (i : Nat) (hi : i < d) :
    (reconstruct_round_lengths n k d).getD (i + 1) 0 =
      padDivStep k ((reconstruct_round_lengths n k d).getD i 0) := by
  induction d generalizing n i with
  | zero => omega
  | succ m ih =>
    rw [reconstruct_round_lengths, rrlGo_cons]
    cases i with
    | zero => simp [reconstruct_round_lengths]
    | succ j =>
      have := ih (padDivStep k n) j (by omega)
      simpa [reconstruct_round_lengths] using this

theorem padDivStep_eq_ceil (k n : Nat) (hk : 1 ≤ k) :
    padDivStep k n = (n + k - 1) / k := by
  unfold padDivStep
  obtain ⟨q, r, hr, rfl⟩ : ∃ q r, r < k ∧ n = k * q + r :=
    ⟨n / k, n % k, Nat.mod_lt _ (by omega), (Nat.div_add_mod n k).symm⟩
  have hmod : (k * q + r) % k = r := by
    rw [Nat.add_mod, Nat.mul_mod_right]
    simp [Nat.mod_eq_of_lt hr]
  rw [hmod]
  have hexp : k * q + k = k * (q + 1) := by ring
  by_cases h0 : r = 0
  · subst h0
    rw [if_pos rfl]
    have e1 : k * q + 0 + 0 = k * q := by omega
    have e2 : k * q + k - 1 = (k - 1) + k * q := by omega
    rw [e1, e2, Nat.mul_div_cancel_left _ (show 0 < k by omega),
      Nat.add_mul_div_left _ _ (show 0 < k by omega),
      Nat.div_eq_of_lt (show k - 1 < k by omega)]
    omega
  · rw [if_neg h0]
    have e1 : k * q + r + (k - r) = k * q + k := by omega
    have e2 : k * q + r + k - 1 = (r - 1) + (k * q + k) := by omega
    rw [e1, e2, hexp, Nat.mul_div_cancel_left _ (show 0 < k by omega),
      Nat.add_mul_div_left _ _ (show 0 < k by omega),
      Nat.div_eq_of_lt (show r - 1 < k by omega)]
    omega

/-- C3: `reconstruct_round_lengths(n, k, d)` is a pure function returning
exactly `d+1` lengths, starting with `n`, each next obtained by padding the
previous to the next multiple of `k` and dividing by `k`, equivalently the
ceiling of the previous length divided by `k`. -/
theorem reconstruct_round_lengths_spec (n k d : Nat) (hk : 2 ≤ k) :
    (reconstruct_round_lengths n k d).length = d + 1 ∧
    (reconstruct_round_lengths n k d).headI = n ∧
    (∀ i, i < d →
      (reconstruct_round_lengths n k d).getD (i + 1) 0 =
        padDivStep k ((reconstruct_round_lengths n k d).getD i 0) ∧
      (reconstruct_round_lengths n k d).getD (i + 1) 0 =
        ((reconstruct_round_lengths n k d).getD i 0 + k - 1) / k) := by
  refine ⟨by simp [reconstruct_round_lengths, rrlGo_length], rfl, ?_⟩
  intro i hi
  refine ⟨reconstruct_round_lengths_getD n k d i hi, ?_⟩
  rw [reconstruct_round_lengths_getD n k d i hi, padDivStep_eq_ceil _ _ (by omega)]

/-- Witness for C3 at `n = 5, k = 3, d = 2`. -/
theorem reconstruct_round_lengths_spec_witness :
    (2 ≤ 3) ∧
    ((reconstruct_round_lengths 5 3 2).length = 2 + 1 ∧
     (reconstruct_round_lengths 5 3 2).headI = 5 ∧
     (∀ i, i < 2 →
       (reconstruct_round_lengths 5 3 2).getD (i + 1) 0 =
         padDivStep 3 ((reconstruct_round_lengths 5 3 2).getD i 0) ∧
       (reconstruct_round_lengths 5 3 2).getD (i + 1) 0 =
         ((reconstruct_round_lengths 5 3 2).getD i 0 + 3 - 1) / 3)) :=
  ⟨by decide, reconstruct_round_lengths_spec 5 3 2 (by decide)⟩

/-- Modelled from the spec: the error taxonomy of §7, with the variants the
source constructs (`errors.rs` is outside `src/`). -/
inductive ProofError where
  | FormatError
  | VerificationError
  | InvalidGeneratorsLength
deriving DecidableEq

/-- Modelled from the spec: R1CS-level error taxonomy (§7). -/
inductive R1CSError where
  | FormatError
  | VerificationError
  | InvalidGeneratorsLength
deriving DecidableEq

deriving instance DecidableEq for Except

/-- Outcome of a Rust call that can panic: `none` models a panic, `some`
the returned `Result`. -/
abbrev RustResult (ε α : Type) := Option (Except ε α)

def U64SIZE : Nat := 2 ^ 64

def isizeMax : Nat := 2 ^ 63 - 1

/-- The `usize` expression `2 * k - 2` with release-mode wrapping semantics
(underflows to `2^64 - 2` at `k = 0`; debug builds panic there instead). -/
def usize_two_k_sub_two (k : Nat) : Nat :=
  (2 * k % U64SIZE + (U64SIZE - 2)) % U64SIZE

theorem usize_two_k_sub_two_eq (k : Nat) (h1 : 1 ≤ k) (h2 : k ≤ 2 ^ 57) :
    usize_two_k_sub_two k = 2 * k - 2 := by
  unfold usize_two_k_sub_two U64SIZE
  have hk : 2 * k < 2 ^ 64 := by
    calc 2 * k ≤ 2 * 2 ^ 57 := by omega
      _ < 2 ^ 64 := by norm_num
  rw [Nat.mod_eq_of_lt hk]
  have he : 2 * k + (2 ^ 64 - 2) = 2 ^ 64 + (2 * k - 2) := by omega
  rw [he, Nat.add_mod_left, Nat.mod_eq_of_lt (by omega)]

/-- `util::read32`: the first 32 bytes of a slice (call sites check that 32
bytes are available; the real function panics otherwise). -/
def read32 (s : List Byte) : List Byte := s.take 32

/-- A 32-byte header word holding a `u64` little-endian in its low 8 bytes. -/
def headerWord (v : Nat) : List Byte := natToLE 8 v ++ List.replicate 24 (0 : Byte)

/-- `InnerProductProof` (the classical binary argument). -/
structure InnerProductProof where
  L_vec : List CompressedRistretto
  R_vec : List CompressedRistretto
  a : Scalar
  b : Scalar
deriving DecidableEq

/-- `K_BulletProof` (IPA with iterative padding). -/
structure K_BulletProof where
  k : Nat
  U_vecs : List (List CompressedRistretto)
  a_final : List Scalar
  b_final : List Scalar
deriving DecidableEq

/-- `batched_eCP` (eCP with iterative padding); `[CompressedRistretto; 2]`
is a pair. -/
structure batched_eCP where
  k : Nat
  A_vecs : List (List (CompressedRistretto × CompressedRistretto))
  z : List Scalar
deriving DecidableEq

/-- The point-reading loop of `K_BulletProof::from_bytes`: `cnt` compressed
points of 32 bytes each, with the source's `pos + 32 > b` bounds check. -/
def readPoints : Nat → List Byte → Except ProofError (List CompressedRistretto × List Byte)
  | 0, rest => .ok ([], rest)
  | cnt + 1, rest =>
    if rest.length < 32 then .error ProofError.FormatError
    else
      match readPoints cnt (rest.drop 32) with
      | .error e => .error e
      | .ok (ps, rest2) => .ok (rest.take 32 :: ps, rest2)

/-- The scalar-reading loops of `from_bytes`: `cnt` scalars with canonical
decoding, rejecting non-canonical encodings. -/
def readScalars : Nat → List Byte → Except ProofError (List Scalar × List Byte)
  | 0, rest => .ok ([], rest)
  | cnt + 1, rest =>
    if rest.length < 32 then .error ProofError.FormatError
    else
      match Scalar.from_canonical_bytes (read32 rest) with
      | none => .error ProofError.FormatError
      | some s =>
        match readScalars cnt (rest.drop 32) with
        | .error e => .error e
        | .ok (ss, rest2) => .ok (s :: ss, rest2)

/-- The per-round loop of `K_BulletProof::from_bytes`. -/
def readRounds (pts_per : Nat) : Nat → List Byte →
    Except ProofError (List (List CompressedRistretto) × List Byte)
  | 0, rest => .ok ([], rest)
  | d + 1, rest =>
    match readPoints pts_per rest with
    | .error e => .error e
    | .ok (round, rest2) =>
      match readRounds pts_per d rest2 with
      | .error e => .error e
      | .ok (rs, rest3) => .ok (round :: rs, rest3)

/-- The pair-reading loop of `batched_eCP::from_bytes`, with the source's
`pos + 64 > b` bounds check. -/
def readPairs : Nat → List Byte →
    Except ProofError (List (CompressedRistretto × CompressedRistretto) × List Byte)
  | 0, rest => .ok ([], rest)
  | cnt + 1, rest =>
    if rest.length < 64 then .error ProofError.FormatError
    else
      match readPairs cnt (rest.drop 64) with
      | .error e => .error e
      | .ok (ps, rest2) => .ok ((rest.take 32, (rest.drop 32).take 32) :: ps, rest2)

/-- The per-round loop of `batched_eCP::from_bytes`. -/
def readPairRounds (pairs_per : Nat) : Nat → List Byte →
    Except ProofError (List (List (CompressedRistretto × CompressedRistretto)) × List Byte)
  | 0, rest => .ok ([], rest)
  | d + 1, rest =>
    match readPairs pairs_per rest with
    | .error e => .error e
    | .ok (round, rest2) =>
      match readPairRounds pairs_per d rest2 with
      | .error e => .error e
      | .ok (rs, rest3) => .ok (round :: rs, rest3)

def K_BulletProof.serialized_size (p : K_BulletProof) : Nat :=
  let d := p.U_vecs.length
  let num_points := if d > 0 then d * (2 * p.k - 2) else 0
  let m := p.a_final.length
  (3 + num_points + 2 * m) * 32

/-- `K_BulletProof::to_bytes`: three 32-byte header words (`k`, `d`, `m`),
then the round points, then `a_final`, then `b_final`. -/
def K_BulletProof.to_bytes (p : K_BulletProof) : List Byte :=
  headerWord p.k ++ headerWord p.U_vecs.length ++ headerWord p.a_final.length ++
    (p.U_vecs.map (fun rv => rv.flatten)).flatten ++
    (p.a_final.map Scalar.as_bytes).flatten ++
    (p.b_final.map Scalar.as_bytes).flatten

/-- `K_BulletProof::from_bytes`.  `none` models a Rust panic: in release
mode `Vec::with_capacity` panics when the requested capacity exceeds
`isize::MAX` bytes (elements: 32-byte points/scalars, 24-byte `Vec`
headers); `2 * k - 2` uses wrapping semantics (debug builds already panic
on the underflow at `k = 0`). -/
def K_BulletProof.from_bytes (slice : List Byte) : RustResult ProofError K_BulletProof :=
  if slice.length < 32 * 3 then some (.error ProofError.FormatError)
  else
    if isizeMax < leToNat ((read32 (slice.drop 32)).take 8) * 24 then none
    else if leToNat ((read32 (slice.drop 32)).take 8) ≠ 0 ∧
        isizeMax < usize_two_k_sub_two (leToNat ((read32 slice).take 8)) * 32 then none
    else
      match readRounds (usize_two_k_sub_two (leToNat ((read32 slice).take 8)))
          (leToNat ((read32 (slice.drop 32)).take 8)) (slice.drop 96) with
      | .error e => some (.error e)
      | .ok (U_vecs, rest) =>
        if isizeMax < leToNat ((read32 (slice.drop 64)).take 8) * 32 then none
        else
          match readScalars (leToNat ((read32 (slice.drop 64)).take 8)) rest with
          | .error e => some (.error e)
          | .ok (a_final, rest2) =>
            match readScalars (leToNat ((read32 (slice.drop 64)).take 8)) rest2 with
            | .error e => some (.error e)
            | .ok (b_final, _) =>
              some (.ok ⟨leToNat ((read32 slice).take 8), U_vecs, a_final, b_final⟩)

def batched_eCP.serialized_size (p : batched_eCP) : Nat :=
  let d := p.A_vecs.length
  let num_points := if d > 0 then d * (2 * p.k - 2) * 2 else 0
  let m := p.z.length
  (3 + num_points + m) * 32

/-- `batched_eCP::to_bytes`: header words (`k`, `d`, `m`), then the rounds
of point pairs, then `z`. -/
def batched_eCP.to_bytes (p : batched_eCP) : List Byte :=
  headerWord p.k ++ headerWord p.A_vecs.length ++ headerWord p.z.length ++
    (p.A_vecs.map (fun rv => (rv.map (fun pr => pr.1 ++ pr.2)).flatten)).flatten ++
    (p.z.map Scalar.as_bytes).flatten

/-- `batched_eCP::from_bytes`; panic modelling as in
`K_BulletProof.from_bytes` (round elements are 64-byte point pairs). -/
def batched_eCP.from_bytes (slice : List Byte) : RustResult ProofError batched_eCP :=
  if slice.length < 32 * 3 then some (.error ProofError.FormatError)
  else
    if isizeMax < leToNat ((read32 (slice.drop 32)).take 8) * 24 then none
    else if leToNat ((read32 (slice.drop 32)).take 8) ≠ 0 ∧
        isizeMax < usize_two_k_sub_two (leToNat ((read32 slice).take 8)) * 64 then none
    else
      match readPairRounds (usize_two_k_sub_two (leToNat ((read32 slice).take 8)))
          (leToNat ((read32 (slice.drop 32)).take 8)) (slice.drop 96) with
      | .error e => some (.error e)
      | .ok (A_vecs, rest) =>
        if isizeMax < leToNat ((read32 (slice.drop 64)).take 8) * 32 then none
        else
          match readScalars (leToNat ((read32 (slice.drop 64)).take 8)) rest with
          | .error e => some (.error e)
          | .ok (z, _) => some (.ok ⟨leToNat ((read32 slice).take 8), A_vecs, z⟩)

instance : NeZero groupOrder := ⟨by decide⟩

theorem headerWord_length (v : Nat) : (headerWord v).length = 32 := by
  simp [headerWord, natToLE_length]

theorem drop32_headerWord (v : Nat) (rest : List Byte) :
    (headerWord v ++ rest).drop 32 = rest :=
  drop_append_of_length _ _ 32 (headerWord_length v)

theorem read_headerWord (v : Nat) (rest : List Byte) (h : v < 2 ^ 64) :
    leToNat ((read32 (headerWord v ++ rest)).take 8) = v := by
  unfold read32
  rw [take_append_of_length _ _ 32 (headerWord_length v)]
  unfold headerWord
  rw [take_append_of_length _ _ 8 (natToLE_length 8 v)]
  exact leToNat_natToLE 8 v (by norm_num at h ⊢; omega)

theorem scalar_as_bytes_length (s : Scalar) : (Scalar.as_bytes s).length = 32 := by
  simp [Scalar.as_bytes, natToLE_length]

theorem from_canonical_as_bytes (s : Scalar) :
    Scalar.from_canonical_bytes (Scalar.as_bytes s) = some s := by
  unfold Scalar.from_canonical_bytes Scalar.as_bytes
  have hlt : s.val < groupOrder := ZMod.val_lt s
  rw [leToNat_natToLE 32 s.val (lt_trans hlt (by norm_num [groupOrder]))]
  rw [if_pos hlt]
  congr 1
  exact ZMod.natCast_rightInverse s

theorem readPoints_append (pts : List CompressedRistretto) (rest : List Byte)
    (h32 : ∀ pt ∈ pts, pt.length = 32) :
    readPoints pts.length (pts.flatten ++ rest) = .ok (pts, rest) := by
  induction pts with
  | nil => simp [readPoints]
  | cons pt pts ih =>
    have hpt : pt.length = 32 := h32 pt (by simp)
    have hflat : (pt :: pts).flatten ++ rest = pt ++ (pts.flatten ++ rest) := by simp
    rw [List.length_cons, readPoints, hflat,
      if_neg (by simp [List.length_append, hpt]),
      drop_append_of_length pt _ 32 hpt,
      take_append_of_length pt _ 32 hpt,
      ih (fun q hq => h32 q (by simp [hq]))]

theorem readScalars_append (xs : List Scalar) (rest : List Byte) :
    readScalars xs.length ((xs.map Scalar.as_bytes).flatten ++ rest) = .ok (xs, rest) := by
  induction xs with
  | nil => simp [readScalars]
  | cons s xs ih =>
    have hlen : (Scalar.as_bytes s).length = 32 := scalar_as_bytes_length s
    have hflat : ((s :: xs).map Scalar.as_bytes).flatten ++ rest =
        Scalar.as_bytes s ++ ((xs.map Scalar.as_bytes).flatten ++ rest) := by simp
    rw [List.length_cons, readScalars, hflat,
      if_neg (by simp [List.length_append, hlen])]
    unfold read32
    rw [take_append_of_length _ _ 32 hlen, from_canonical_as_bytes,
      drop_append_of_length _ _ 32 hlen, ih]

theorem readScalars_exact (xs : List Scalar) :
    readScalars xs.length (xs.map Scalar.as_bytes).flatten = .ok (xs, []) := by
  have h := readScalars_append xs []
  simpa using h

theorem readRounds_append (ppr : Nat) (rounds : List (List CompressedRistretto))
    (rest : List Byte)
    (hlen : ∀ rv ∈ rounds, rv.length = ppr)
    (h32 : ∀ rv ∈ rounds, ∀ pt ∈ rv, pt.length = 32) :
    readRounds ppr rounds.length ((rounds.map (fun rv => rv.flatten)).flatten ++ rest) =
      .ok (rounds, rest) := by
  induction rounds with
  | nil => simp [readRounds]
  | cons rv rounds ih =>
    have hflat : ((rv :: rounds).map (fun r => r.flatten)).flatten ++ rest =
        rv.flatten ++ ((rounds.map (fun r => r.flatten)).flatten ++ rest) := by simp
    have h1 : readPoints ppr
        (rv.flatten ++ ((rounds.map (fun r => r.flatten)).flatten ++ rest)) =
        .ok (rv, (rounds.map (fun r => r.flatten)).flatten ++ rest) := by
      rw [← hlen rv (by simp)]
      exact readPoints_append rv _ (h32 rv (by simp))
    rw [List.length_cons, readRounds, hflat]
    simp only [h1]
    rw [ih (fun q hq => hlen q (by simp [hq])) (fun q hq => h32 q (by simp [hq]))]

theorem readPairs_append (prs : List (CompressedRistretto × CompressedRistretto))
    (rest : List Byte)
    (h32 : ∀ pr ∈ prs, pr.1.length = 32 ∧ pr.2.length = 32) :
    readPairs prs.length ((prs.map (fun pr => pr.1 ++ pr.2)).flatten ++ rest) =
      .ok (prs, rest) := by
  induction prs with
  | nil => simp [readPairs]
  | cons pr prs ih =>
    obtain ⟨p1, p2⟩ := pr
    obtain ⟨h1, h2⟩ := h32 (p1, p2) (by simp)
    have hflat : (((p1, p2) :: prs).map (fun pr => pr.1 ++ pr.2)).flatten ++ rest =
        p1 ++ (p2 ++ ((prs.map (fun pr => pr.1 ++ pr.2)).flatten ++ rest)) := by simp
    have h64 : (p1 ++ (p2 ++ ((prs.map (fun pr => pr.1 ++ pr.2)).flatten ++ rest))).drop 64 =
        (prs.map (fun pr => pr.1 ++ pr.2)).flatten ++ rest := by
      rw [show (64 : Nat) = 32 + 32 by rfl, ← List.drop_drop,
        drop_append_of_length p1 _ 32 h1, drop_append_of_length p2 _ 32 h2]
    rw [List.length_cons, readPairs, hflat,
      if_neg (by simp [List.length_append, h1, h2]; omega),
      take_append_of_length p1 _ 32 h1,
      drop_append_of_length p1 _ 32 h1,
      take_append_of_length p2 _ 32 h2, h64,
      ih (fun q hq => h32 q (by simp [hq]))]

theorem readPairRounds_append (ppr : Nat)
    (rounds : List (List (CompressedRistretto × CompressedRistretto)))
    (rest : List Byte)
    (hlen : ∀ rv ∈ rounds, rv.length = ppr)
    (h32 : ∀ rv ∈ rounds, ∀ pr ∈ rv, pr.1.length = 32 ∧ pr.2.length = 32) :
    readPairRounds ppr rounds.length
      ((rounds.map (fun rv => (rv.map (fun pr => pr.1 ++ pr.2)).flatten)).flatten ++ rest) =
      .ok (rounds, rest) := by
  induction rounds with
  | nil => simp [readPairRounds]
  | cons rv rounds ih =>
    have hflat : ((rv :: rounds).map (fun rv => (rv.map (fun pr => pr.1 ++ pr.2)).flatten)).flatten
        ++ rest =
        (rv.map (fun pr => pr.1 ++ pr.2)).flatten ++
          ((rounds.map (fun rv => (rv.map (fun pr => pr.1 ++ pr.2)).flatten)).flatten ++ rest) := by
      simp
    have h1 : readPairs ppr
        ((rv.map (fun pr => pr.1 ++ pr.2)).flatten ++
          ((rounds.map (fun rv => (rv.map (fun pr => pr.1 ++ pr.2)).flatten)).flatten ++ rest)) =
        .ok (rv, (rounds.map (fun rv => (rv.map (fun pr => pr.1 ++ pr.2)).flatten)).flatten
          ++ rest) := by
      rw [← hlen rv (by simp)]
      exact readPairs_append rv _ (h32 rv (by simp))
    rw [List.length_cons, readPairRounds, hflat]
    simp only [h1]
    rw [ih (fun q hq => hlen q (by simp [hq])) (fun q hq => h32 q (by simp [hq]))]

/-- Structural invariant of a valid `K_BulletProof`: `create` stores `2k-2`
compressed 32-byte points per round (with `k ≥ 2 ≥ 1`) and equal-length
final vectors, and a successful `from_bytes` reconstructs the same shape;
the size bounds hold for anything a Rust `Vec` can hold in memory. -/
def K_BulletProof.wf (p : K_BulletProof) : Prop :=
  1 ≤ p.k ∧ p.k ≤ 2 ^ 56 ∧ p.U_vecs.length ≤ 2 ^ 56 ∧ p.a_final.length ≤ 2 ^ 56 ∧
  p.b_final.length = p.a_final.length ∧
  (∀ rv ∈ p.U_vecs, rv.length = 2 * p.k - 2) ∧
  (∀ rv ∈ p.U_vecs, ∀ pt ∈ rv, pt.length = 32)

/-- Structural invariant of a valid `batched_eCP`. -/
def batched_eCP.wf (p : batched_eCP) : Prop :=
  1 ≤ p.k ∧ p.k ≤ 2 ^ 56 ∧ p.A_vecs.length ≤ 2 ^ 56 ∧ p.z.length ≤ 2 ^ 56 ∧
  (∀ rv ∈ p.A_vecs, rv.length = 2 * p.k - 2) ∧
  (∀ rv ∈ p.A_vecs, ∀ pr ∈ rv, pr.1.length = 32 ∧ pr.2.length = 32)

theorem K_from_to_bytes (p : K_BulletProof) (h : p.wf) :
    K_BulletProof.from_bytes p.to_bytes = some (.ok p) := by
  obtain ⟨hk1, hk2, hd, hm, hba, hround, hpt32⟩ := h
  have hk64 : p.k < 2 ^ 64 := by
    calc p.k ≤ 2 ^ 56 := hk2
      _ < 2 ^ 64 := by norm_num
  have hd64 : p.U_vecs.length < 2 ^ 64 := by
    calc p.U_vecs.length ≤ 2 ^ 56 := hd
      _ < 2 ^ 64 := by norm_num
  have hm64 : p.a_final.length < 2 ^ 64 := by
    calc p.a_final.length ≤ 2 ^ 56 := hm
      _ < 2 ^ 64 := by norm_num
  unfold K_BulletProof.to_bytes K_BulletProof.from_bytes
  rw [show headerWord p.k ++ headerWord p.U_vecs.length ++ headerWord p.a_final.length ++
      (p.U_vecs.map (fun rv => rv.flatten)).flatten ++
      (p.a_final.map Scalar.as_bytes).flatten ++
      (p.b_final.map Scalar.as_bytes).flatten =
      headerWord p.k ++ (headerWord p.U_vecs.length ++ (headerWord p.a_final.length ++
      ((p.U_vecs.map (fun rv => rv.flatten)).flatten ++
      ((p.a_final.map Scalar.as_bytes).flatten ++
      (p.b_final.map Scalar.as_bytes).flatten)))) from by simp [List.append_assoc]]
  rw [if_neg (by simp [List.length_append, headerWord_length]; omega)]
  rw [read_headerWord _ _ hk64]
  rw [drop32_headerWord]
  rw [read_headerWord _ _ hd64]
  rw [show ((headerWord p.k ++ (headerWord p.U_vecs.length ++ (headerWord p.a_final.length ++
      ((p.U_vecs.map (fun rv => rv.flatten)).flatten ++
      ((p.a_final.map Scalar.as_bytes).flatten ++
      (p.b_final.map Scalar.as_bytes).flatten))))).drop 64) =
      headerWord p.a_final.length ++
      ((p.U_vecs.map (fun rv => rv.flatten)).flatten ++
      ((p.a_final.map Scalar.as_bytes).flatten ++
      (p.b_final.map Scalar.as_bytes).flatten)) from by
    rw [show (64 : Nat) = 32 + 32 by rfl, ← List.drop_drop, drop32_headerWord,
      drop32_headerWord]]
  rw [read_headerWord _ _ hm64]
  rw [show ((headerWord p.k ++ (headerWord p.U_vecs.length ++ (headerWord p.a_final.length ++
      ((p.U_vecs.map (fun rv => rv.flatten)).flatten ++
      ((p.a_final.map Scalar.as_bytes).flatten ++
      (p.b_final.map Scalar.as_bytes).flatten))))).drop 96) =
      (p.U_vecs.map (fun rv => rv.flatten)).flatten ++
      ((p.a_final.map Scalar.as_bytes).flatten ++
      (p.b_final.map Scalar.as_bytes).flatten) from by
    rw [show (96 : Nat) = 32 + (32 + 32) by rfl, ← List.drop_drop, ← List.drop_drop,
      drop32_headerWord, drop32_headerWord, drop32_headerWord]]
  have hcap1 : ¬ isizeMax < p.U_vecs.length * 24 := by
    push_neg
    calc p.U_vecs.length * 24 ≤ 2 ^ 56 * 24 := Nat.mul_le_mul_right _ hd
      _ ≤ isizeMax := by norm_num [isizeMax]
  have hcap2 : ¬ (p.U_vecs.length ≠ 0 ∧ isizeMax < (2 * p.k - 2) * 32) := by
    rintro ⟨-, hlt⟩
    have : (2 * p.k - 2) * 32 ≤ isizeMax := by
      calc (2 * p.k - 2) * 32 ≤ (2 * 2 ^ 56 - 2) * 32 :=
            Nat.mul_le_mul_right _ (by omega)
        _ ≤ isizeMax := by norm_num [isizeMax]
    omega
  have hcap3 : ¬ isizeMax < p.a_final.length * 32 := by
    push_neg
    calc p.a_final.length * 32 ≤ 2 ^ 56 * 32 := Nat.mul_le_mul_right _ hm
      _ ≤ isizeMax := by norm_num [isizeMax]
  rw [usize_two_k_sub_two_eq p.k hk1 (le_trans hk2 (by norm_num)), if_neg hcap1, if_neg hcap2]
  simp only [readRounds_append _ _ _ hround hpt32, if_neg hcap3,
    readScalars_append p.a_final]
  rw [show p.a_final.length = p.b_final.length from hba.symm]
  simp only [readScalars_exact p.b_final]

theorem eCP_from_to_bytes (p : batched_eCP) (h : p.wf) :
    batched_eCP.from_bytes p.to_bytes = some (.ok p) := by
  obtain ⟨hk1, hk2, hd, hm, hround, hpt32⟩ := h
  have hk64 : p.k < 2 ^ 64 := by
    calc p.k ≤ 2 ^ 56 := hk2
      _ < 2 ^ 64 := by norm_num
  have hd64 : p.A_vecs.length < 2 ^ 64 := by
    calc p.A_vecs.length ≤ 2 ^ 56 := hd
      _ < 2 ^ 64 := by norm_num
  have hm64 : p.z.length < 2 ^ 64 := by
    calc p.z.length ≤ 2 ^ 56 := hm
      _ < 2 ^ 64 := by norm_num
  unfold batched_eCP.to_bytes batched_eCP.from_bytes
  rw [show headerWord p.k ++ headerWord p.A_vecs.length ++ headerWord p.z.length ++
      (p.A_vecs.map (fun rv => (rv.map (fun pr => pr.1 ++ pr.2)).flatten)).flatten ++
      (p.z.map Scalar.as_bytes).flatten =
      headerWord p.k ++ (headerWord p.A_vecs.length ++ (headerWord p.z.length ++
      ((p.A_vecs.map (fun rv => (rv.map (fun pr => pr.1 ++ pr.2)).flatten)).flatten ++
      (p.z.map Scalar.as_bytes).flatten))) from by simp [List.append_assoc]]
  rw [if_neg (by simp [List.length_append, headerWord_length]; omega)]
  rw [read_headerWord _ _ hk64]
  rw [drop32_headerWord]
  rw [read_headerWord _ _ hd64]
  rw [show ((headerWord p.k ++ (headerWord p.A_vecs.length ++ (headerWord p.z.length ++
      ((p.A_vecs.map (fun rv => (rv.map (fun pr => pr.1 ++ pr.2)).flatten)).flatten ++
      (p.z.map Scalar.as_bytes).flatten)))).drop 64) =
      headerWord p.z.length ++
      ((p.A_vecs.map (fun rv => (rv.map (fun pr => pr.1 ++ pr.2)).flatten)).flatten ++
      (p.z.map Scalar.as_bytes).flatten) from by
    rw [show (64 : Nat) = 32 + 32 by rfl, ← List.drop_drop, drop32_headerWord,
      drop32_headerWord]]
  rw [read_headerWord _ _ hm64]
  rw [show ((headerWord p.k ++ (headerWord p.A_vecs.length ++ (headerWord p.z.length ++
      ((p.A_vecs.map (fun rv => (rv.map (fun pr => pr.1 ++ pr.2)).flatten)).flatten ++
      (p.z.map Scalar.as_bytes).flatten)))).drop 96) =
      (p.A_vecs.map (fun rv => (rv.map (fun pr => pr.1 ++ pr.2)).flatten)).flatten ++
      (p.z.map Scalar.as_bytes).flatten from by
    rw [show (96 : Nat) = 32 + (32 + 32) by rfl, ← List.drop_drop, ← List.drop_drop,
      drop32_headerWord, drop32_headerWord, drop32_headerWord]]
  have hcap1 : ¬ isizeMax < p.A_vecs.length * 24 := by
    push_neg
    calc p.A_vecs.length * 24 ≤ 2 ^ 56 * 24 := Nat.mul_le_mul_right _ hd
      _ ≤ isizeMax := by norm_num [isizeMax]
  have hcap2 : ¬ (p.A_vecs.length ≠ 0 ∧ isizeMax < (2 * p.k - 2) * 64) := by
    rintro ⟨-, hlt⟩
    have : (2 * p.k - 2) * 64 ≤ isizeMax := by
      calc (2 * p.k - 2) * 64 ≤ (2 * 2 ^ 56 - 2) * 64 :=
            Nat.mul_le_mul_right _ (by omega)
        _ ≤ isizeMax := by norm_num [isizeMax]
    omega
  have hcap3 : ¬ isizeMax < p.z.length * 32 := by
    push_neg
    calc p.z.length * 32 ≤ 2 ^ 56 * 32 := Nat.mul_le_mul_right _ hm
      _ ≤ isizeMax := by norm_num [isizeMax]
  rw [usize_two_k_sub_two_eq p.k hk1 (le_trans hk2 (by norm_num)), if_neg hcap1, if_neg hcap2]
  simp only [readPairRounds_append _ _ _ hround hpt32, if_neg hcap3,
    readScalars_exact p.z]

/-- C5: decoding inverts encoding, field for field, for every valid
`K_BulletProof` (as produced by `create` or a successful `from_bytes`) and
every valid `batched_eCP`. -/
theorem folding_proof_roundtrip :
    (∀ p : K_BulletProof, p.wf →
      K_BulletProof.from_bytes (K_BulletProof.to_bytes p) = some (.ok p)) ∧
    (∀ p : batched_eCP, p.wf →
      batched_eCP.from_bytes (batched_eCP.to_bytes p) = some (.ok p)) :=
  ⟨K_from_to_bytes, eCP_from_to_bytes⟩

/-- Witness for C5: concrete round trips for a one-round `K_BulletProof`
with `k = 2` and a `batched_eCP` with one final scalar. -/
theorem folding_proof_roundtrip_witness :
    (K_BulletProof.wf ⟨2, [[RistrettoPoint.compress 3, RistrettoPoint.compress 4]], [5], [6]⟩ ∧
     batched_eCP.wf ⟨2, [], [7]⟩) ∧
    K_BulletProof.from_bytes
      (K_BulletProof.to_bytes ⟨2, [[RistrettoPoint.compress 3, RistrettoPoint.compress 4]], [5], [6]⟩) =
      some (.ok ⟨2, [[RistrettoPoint.compress 3, RistrettoPoint.compress 4]], [5], [6]⟩) ∧
    batched_eCP.from_bytes (batched_eCP.to_bytes ⟨2, [], [7]⟩) = some (.ok ⟨2, [], [7]⟩) :=
  ⟨⟨by unfold K_BulletProof.wf; decide, by unfold batched_eCP.wf; decide⟩,
   folding_proof_roundtrip.1 _ (by unfold K_BulletProof.wf; decide),
   folding_proof_roundtrip.2 _ (by unfold batched_eCP.wf; decide)⟩

/-- A 97-byte encoding (`k = 2`, `d = 0`, `m = 0`, one trailing byte):
its length is not a multiple of 32. -/
def ex97 : List Byte := headerWord 2 ++ headerWord 0 ++ headerWord 0 ++ [(0 : Byte)]

/-- C6 counterexample: `K_BulletProof::from_bytes` accepts a 97-byte input,
so it does not reject every slice whose length is not a multiple of 32. -/
theorem K_from_bytes_accepts_non_multiple_of_32 :
    ex97.length % 32 ≠ 0 ∧
    K_BulletProof.from_bytes ex97 = some (.ok ⟨2, [], [], []⟩) := by
  constructor
  · decide
  · decide

theorem readScalars_head_noncanonical (cnt : Nat) (rest : List Byte)
    (h32 : ¬ rest.length < 32)
    (hnc : Scalar.from_canonical_bytes (read32 rest) = none) :
    readScalars (cnt + 1) rest = .error ProofError.FormatError := by
  rw [readScalars, if_neg h32, hnc]

/-- C6 (amended): `K_BulletProof::from_bytes` rejects inputs shorter than
the 96-byte header and rejects non-canonical scalar encodings, but performs
no multiple-of-32 length check (trailing bytes are ignored), has no `lg_n`
bound, and never attempts point decompression. -/
theorem K_from_bytes_checks :
    (∀ s : List Byte, s.length < 96 →
      K_BulletProof.from_bytes s = some (.error ProofError.FormatError)) ∧
    (∀ w : List Byte, w.length = 32 → Scalar.from_canonical_bytes w = none →
      K_BulletProof.from_bytes (headerWord 2 ++ headerWord 0 ++ headerWord 1 ++ w) =
        some (.error ProofError.FormatError)) ∧
    (∀ t : List Byte,
      K_BulletProof.from_bytes (headerWord 2 ++ headerWord 0 ++ headerWord 0 ++ t) =
        some (.ok ⟨2, [], [], []⟩)) := by
  refine ⟨?_, ?_, ?_⟩
  · intro s hs
    unfold K_BulletProof.from_bytes
    rw [if_pos (by omega)]
  · intro w hw hnc
    rw [show headerWord 2 ++ headerWord 0 ++ headerWord 1 ++ w =
      headerWord 2 ++ (headerWord 0 ++ (headerWord 1 ++ w)) from by simp [List.append_assoc]]
    unfold K_BulletProof.from_bytes
    rw [if_neg (by simp [List.length_append, headerWord_length, hw])]
    rw [drop32_headerWord, read_headerWord 0 _ (by norm_num)]
    rw [read_headerWord 2 _ (by norm_num)]
    rw [show ((headerWord 2 ++ (headerWord 0 ++ (headerWord 1 ++ w))).drop 64) =
        headerWord 1 ++ w from by
      rw [show (64 : Nat) = 32 + 32 by rfl, ← List.drop_drop, drop32_headerWord,
        drop32_headerWord]]
    rw [read_headerWord 1 _ (by norm_num)]
    rw [show ((headerWord 2 ++ (headerWord 0 ++ (headerWord 1 ++ w))).drop 96) = w from by
      rw [show (96 : Nat) = 32 + (32 + 32) by rfl, ← List.drop_drop, ← List.drop_drop,
        drop32_headerWord, drop32_headerWord, drop32_headerWord]]
    rw [if_neg (by norm_num [isizeMax])]
    rw [if_neg (by simp)]
    have hw32 : ¬ w.length < 32 := by omega
    have hnc2 : Scalar.from_canonical_bytes (read32 w) = none := by
      rw [show read32 w = w from by rw [read32, ← hw, List.take_length]]
      exact hnc
    simp only [readRounds, readScalars_head_noncanonical 0 w hw32 hnc2,
      if_neg (show ¬ isizeMax < 1 * 32 by norm_num [isizeMax])]
  · intro t
    rw [show headerWord 2 ++ headerWord 0 ++ headerWord 0 ++ t =
      headerWord 2 ++ (headerWord 0 ++ (headerWord 0 ++ t)) from by simp [List.append_assoc]]
    unfold K_BulletProof.from_bytes
    rw [if_neg (by simp [List.length_append, headerWord_length]; omega)]
    rw [drop32_headerWord, read_headerWord 0 _ (by norm_num)]
    rw [read_headerWord 2 _ (by norm_num)]
    rw [show ((headerWord 2 ++ (headerWord 0 ++ (headerWord 0 ++ t))).drop 64) =
        headerWord 0 ++ t from by
      rw [show (64 : Nat) = 32 + 32 by rfl, ← List.drop_drop, drop32_headerWord,
        drop32_headerWord]]
    rw [read_headerWord 0 _ (by norm_num)]
    rw [if_neg (by norm_num [isizeMax])]
    rw [if_neg (by simp)]
    simp only [readRounds, readScalars,
      if_neg (show ¬ isizeMax < 0 * 32 by norm_num [isizeMax])]

/-- Witness for C6 (amended), at the empty slice, a non-canonical scalar
word (the group order itself), and a single trailing byte. -/
theorem K_from_bytes_checks_witness :
    (([] : List Byte).length < 96 ∧
      K_BulletProof.from_bytes [] = some (.error ProofError.FormatError)) ∧
    ((natToLE 32 groupOrder).length = 32 ∧
      Scalar.from_canonical_bytes (natToLE 32 groupOrder) = none ∧
      K_BulletProof.from_bytes
        (headerWord 2 ++ headerWord 0 ++ headerWord 1 ++ natToLE 32 groupOrder) =
        some (.error ProofError.FormatError)) ∧
    K_BulletProof.from_bytes (headerWord 2 ++ headerWord 0 ++ headerWord 0 ++ [(0 : Byte)]) =
      some (.ok ⟨2, [], [], []⟩) :=
  ⟨⟨by decide, K_from_bytes_checks.1 [] (by decide)⟩,
   ⟨by decide, by decide, K_from_bytes_checks.2.1 _ (by decide) (by decide)⟩,
   K_from_bytes_checks.2.2 [(0 : Byte)]⟩

/-- A 96-byte header that decodes to `k = 0, d = 1, m = 0`. -/
def zeroArityHeader : List Byte := headerWord 0 ++ headerWord 1 ++ headerWord 0

/-- C9: on a header with `k = 0` and `d = 1`, both decoders panic instead of
returning an error: `2 * k - 2` underflows (a panic by itself in debug
builds) and the wrapped value `2^64 - 2` makes `Vec::with_capacity` panic
with a capacity overflow in release builds. `none` is the panic outcome. -/
theorem from_bytes_zero_arity_panics :
    K_BulletProof.from_bytes zeroArityHeader = none ∧
    batched_eCP.from_bytes zeroArityHeader = none := by
  constructor
  · decide
  · decide

/-- `R1CSProof` from `r1cs/proof.rs`: 13 commitment points, 8 scalars, one
embedded `K_BulletProof` and one embedded `batched_eCP`. -/
structure R1CSProof where
  A_I : CompressedRistretto
  A_O : CompressedRistretto
  S : CompressedRistretto
  T_1 : CompressedRistretto
  T_2 : CompressedRistretto
  T_3 : CompressedRistretto
  T_4 : CompressedRistretto
  T_5 : CompressedRistretto
  T_6 : CompressedRistretto
  t_x : Scalar
  t_x_blinding : Scalar
  e_blinding : Scalar
  ipp_proof : K_BulletProof
  S_prime : CompressedRistretto
  T_1_prime : CompressedRistretto
  S1_prime : CompressedRistretto
  S2_prime : CompressedRistretto
  tc_x : Scalar
  tc_x_blinding : Scalar
  ec_blinding : Scalar
  t_cross : Scalar
  r_blinding : Scalar
  ecp_batched : batched_eCP
deriving DecidableEq

/-- `R1CSProof::from_bytes`: 13 points and 8 scalars at fixed offsets, two
`u64` blob lengths at offsets 672 and 680, an exact total-length check, then
the two embedded decoders (whose panics propagate). -/
def R1CSProof.from_bytes (slice : List Byte) : RustResult ProofError R1CSProof :=
  if slice.length < (13 + 8) * 32 + 2 * 8 then some (.error ProofError.FormatError)
  else
    match Scalar.from_canonical_bytes (read32 (slice.drop 416)),
        Scalar.from_canonical_bytes (read32 (slice.drop 448)),
        Scalar.from_canonical_bytes (read32 (slice.drop 480)),
        Scalar.from_canonical_bytes (read32 (slice.drop 512)),
        Scalar.from_canonical_bytes (read32 (slice.drop 544)),
        Scalar.from_canonical_bytes (read32 (slice.drop 576)),
        Scalar.from_canonical_bytes (read32 (slice.drop 608)),
        Scalar.from_canonical_bytes (read32 (slice.drop 640)) with
    | some t_x, some t_x_blinding, some e_blinding, some tc_x, some tc_x_blinding,
        some ec_blinding, some t_cross, some r_blinding =>
      if slice.length < 672 + 8 then some (.error ProofError.FormatError)
      else if slice.length < 680 + 8 then some (.error ProofError.FormatError)
      else if slice.length ≠ 688 + leToNat ((slice.drop 672).take 8) +
          leToNat ((slice.drop 680).take 8) then
        some (.error ProofError.FormatError)
      else
        match K_BulletProof.from_bytes
            ((slice.drop 688).take (leToNat ((slice.drop 672).take 8))) with
        | none => none
        | some (.error e) => some (.error e)
        | some (.ok ipp_proof) =>
          match batched_eCP.from_bytes
              ((slice.drop (688 + leToNat ((slice.drop 672).take 8))).take
                (leToNat ((slice.drop 680).take 8))) with
          | none => none
          | some (.error e) => some (.error e)
          | some (.ok ecp_batched) =>
            some (.ok
              { A_I := read32 slice
                A_O := read32 (slice.drop 32)
                S := read32 (slice.drop 64)
                T_1 := read32 (slice.drop 96)
                T_2 := read32 (slice.drop 128)
                T_3 := read32 (slice.drop 160)
                T_4 := read32 (slice.drop 192)
                T_5 := read32 (slice.drop 224)
                T_6 := read32 (slice.drop 256)
                S_prime := read32 (slice.drop 288)
                T_1_prime := read32 (slice.drop 320)
                S1_prime := read32 (slice.drop 352)
                S2_prime := read32 (slice.drop 384)
                t_x := t_x
                t_x_blinding := t_x_blinding
                e_blinding := e_blinding
                ipp_proof := ipp_proof
                tc_x := tc_x
                tc_x_blinding := tc_x_blinding
                ec_blinding := ec_blinding
                t_cross := t_cross
                r_blinding := r_blinding
                ecp_batched := ecp_batched })
    | _, _, _, _, _, _, _, _ => some (.error ProofError.FormatError)

/-- C7: `R1CSProof::from_bytes` rejects any slice shorter than the fixed
header with `FormatError` before parsing any point or scalar, rejects any
slice whose total length is not exactly header plus the two declared blob
lengths, and returns `Ok` only when the length is exact. -/
theorem r1cs_from_bytes_length_exact :
    (∀ s : List Byte, s.length < 688 →
      R1CSProof.from_bytes s = some (.error ProofError.FormatError)) ∧
    (∀ s : List Byte, 688 ≤ s.length →
      s.length ≠ 688 + leToNat ((s.drop 672).take 8) + leToNat ((s.drop 680).take 8) →
      R1CSProof.from_bytes s = some (.error ProofError.FormatError)) ∧
    (∀ s : List Byte, ∀ pf : R1CSProof, R1CSProof.from_bytes s = some (.ok pf) →
      s.length = 688 + leToNat ((s.drop 672).take 8) + leToNat ((s.drop 680).take 8)) := by
  have h1 : ∀ s : List Byte, s.length < 688 →
      R1CSProof.from_bytes s = some (.error ProofError.FormatError) := by
    intro s hs
    unfold R1CSProof.from_bytes
    rw [if_pos (by omega)]
  have h2 : ∀ s : List Byte, 688 ≤ s.length →
      s.length ≠ 688 + leToNat ((s.drop 672).take 8) + leToNat ((s.drop 680).take 8) →
      R1CSProof.from_bytes s = some (.error ProofError.FormatError) := by
    intro s hs hne
    unfold R1CSProof.from_bytes
    rw [if_neg (by omega)]
    split
    · rw [if_neg (by omega), if_neg (by omega), if_pos hne]
    · rfl
  refine ⟨h1, h2, ?_⟩
  intro s pf h
  by_contra hne
  rcases Nat.lt_or_ge s.length 688 with hlt | hge
  · rw [h1 s hlt] at h
    exact absurd h (by simp)
  · rw [h2 s hge hne] at h
    exact absurd h (by simp)

/-- Witness for C7 at the empty slice and at a 689-byte all-zero slice
(whose declared blob lengths are `0`, so the expected length is 688). -/
theorem r1cs_from_bytes_length_exact_witness :
    (([] : List Byte).length < 688 ∧
      R1CSProof.from_bytes [] = some (.error ProofError.FormatError)) ∧
    (688 ≤ (List.replicate 689 (0 : Byte)).length ∧
      (List.replicate 689 (0 : Byte)).length ≠ 688 +
        leToNat (((List.replicate 689 (0 : Byte)).drop 672).take 8) +
        leToNat (((List.replicate 689 (0 : Byte)).drop 680).take 8) ∧
      R1CSProof.from_bytes (List.replicate 689 (0 : Byte)) =
        some (.error ProofError.FormatError)) :=
  ⟨⟨by decide, r1cs_from_bytes_length_exact.1 [] (by decide)⟩,
   ⟨by decide, by decide,
    r1cs_from_bytes_length_exact.2.1 _ (by decide) (by decide)⟩⟩

/-- One absorbed transcript event: a labeled message or a challenge squeeze. -/
inductive TEntry where
  | msg (label : String) (data : List Byte)
  | chal (label : String)
deriving DecidableEq

/-- Modelled from the spec: the Fiat-Shamir transcript as the log of its
absorbed events (a stateful append-only object, §2). -/
abbrev Transcript := List TEntry

/-- Modelled from the spec: a challenge scalar is a deterministic function
of all prior absorbs and the challenge label (§2); the oracle is that
function, supplied explicitly. -/
abbrev ChalOracle := Transcript → String → Scalar

/-- Modelled from the spec: `Transcript::append_message`. -/
def append_message (t : Transcript) (label : String) (data : List Byte) : Transcript :=
  t ++ [TEntry.msg label data]

/-- Modelled from the spec: `TranscriptProtocol::commit_point` absorbs the
compressed point bytes under the label. -/
def commit_point (t : Transcript) (label : String) (c : CompressedRistretto) : Transcript :=
  append_message t label c

/-- Modelled from the spec: `TranscriptProtocol::commit_scalar`. -/
def commit_scalar (t : Transcript) (label : String) (s : Scalar) : Transcript :=
  append_message t label s.as_bytes

/-- Modelled from the spec: `TranscriptProtocol::commit_u64`. -/
def commit_u64 (t : Transcript) (label : String) (v : Nat) : Transcript :=
  append_message t label (natToLE 8 v)

/-- Modelled from the spec: deriving a labeled challenge also advances the
transcript state. -/
def challenge_scalar (o : ChalOracle) (t : Transcript) (label : String) :
    Scalar × Transcript :=
  (o t label, t ++ [TEntry.chal label])

/-- Modelled from the spec: `innerproduct_domain_sep(n)` of the external
transcript protocol, with the classical labels. -/
def innerproduct_domain_sep (t : Transcript) (n : Nat) : Transcript :=
  commit_u64 (append_message t "dom-sep" (strBytes "ipp v1")) "n" n

/-- Contiguous block `i` of size `m` of a vector (Rust `chunks(m)`). -/
def chunk {α : Type} (v : List α) (m i : Nat) : List α := (v.drop (i * m)).take m

/-- The iteratively built power list of `K_BulletProof::create`
(`start, start*step, start*step², ...`, `k` entries). -/
def powList (start step : Scalar) : Nat → List Scalar
  | 0 => []
  | n + 1 => start :: powList (start * step) step n

/-- The iterated product `1 * c * ... * c` (`times` factors), as built by
the `for _ in 1..k` loop. -/
def mulIter (c : Scalar) : Nat → Scalar
  | 0 => 1
  | n + 1 => mulIter c n * c

/-- Mutable loop state of `K_BulletProof::create`. -/
structure KState where
  a : List Scalar
  b : List Scalar
  g : List RistrettoPoint
  h : List RistrettoPoint
  n_j : Nat
  t : Transcript
  U_vecs : List (List CompressedRistretto)

/-- The pre-challenge part of one round of `K_BulletProof::create`: pad,
split into `k` blocks, compute the `2k-2` cross-term commitments and absorb
them (round and point indices in the labels). -/
structure KRoundMid where
  aP : List Scalar
  bP : List Scalar
  gP : List RistrettoPoint
  hP : List RistrettoPoint
  m_j : Nat
  U_round : List CompressedRistretto
  t : Transcript

def kRoundMid (k : Nat) (Q_point : RistrettoPoint) (j : Nat) (s : KState) : KRoundMid :=
  let rem := s.n_j % k
  let pad := if rem = 0 then 0 else k - rem
  let aP := s.a ++ List.replicate pad (0 : Scalar)
  let bP := s.b ++ List.replicate pad (0 : Scalar)
  let gP := s.g ++ List.replicate pad (0 : RistrettoPoint)
  let hP := s.h ++ List.replicate pad (0 : RistrettoPoint)
  let m_j := (s.n_j + pad) / k
  let U_pos := (List.range (k - 1)).map (fun l0 =>
    let l := l0 + 1
    let v_pos := ((List.range (k - l)).map (fun i =>
      inner_product (chunk aP m_j i) (chunk bP m_j (i + l)))).sum
    let scalars := ((List.range (k - l)).map (fun i =>
      chunk aP m_j i ++ chunk bP m_j (i + l))).flatten
    let points := ((List.range (k - l)).map (fun i =>
      chunk gP m_j (i + l) ++ chunk hP m_j i)).flatten
    (vartime_multiscalar_mul scalars points + v_pos * Q_point).compress)
  let U_neg := (List.range (k - 1)).map (fun l0 =>
    let l := l0 + 1
    let v_neg := ((List.range (k - l)).map (fun i =>
      inner_product (chunk aP m_j (i + l)) (chunk bP m_j i))).sum
    let scalars := ((List.range (k - l)).map (fun i =>
      chunk aP m_j (i + l) ++ chunk bP m_j i)).flatten
    let points := ((List.range (k - l)).map (fun i =>
      chunk gP m_j i ++ chunk hP m_j (i + l))).flatten
    (vartime_multiscalar_mul scalars points + v_neg * Q_point).compress)
  let U_round := U_pos ++ U_neg
  let t1 := U_round.enum.foldl (fun tc pr =>
    commit_point
      (append_message (append_message tc "U_round" (natToLE 8 j)) "U_index" (natToLE 8 pr.1))
      "U_point" pr.2) s.t
  let t2 := append_message t1 "challenge_prefix" (strBytes "c_")
  let t3 := append_message t2 "challenge_index" (natToLE 8 j)
  { aP := aP, bP := bP, gP := gP, hP := hP, m_j := m_j, U_round := U_round, t := t3 }

/-- The round challenge `c` of round `j` of `K_BulletProof::create`. -/
def kRoundChallenge (o : ChalOracle) (k : Nat) (Q_point : RistrettoPoint) (j : Nat)
    (s : KState) : Scalar :=
  (challenge_scalar o (kRoundMid k Q_point j s).t "challenge_separator").1

/-- One full round of `K_BulletProof::create`: cross terms, challenge, and
the fold of witnesses and generators. -/
def kCreateRound (o : ChalOracle) (k : Nat) (Q_point : RistrettoPoint) (j : Nat)
    (s : KState) : KState :=
  let mid := kRoundMid k Q_point j s
  let c := kRoundChallenge o k Q_point j s
  let t4 := (challenge_scalar o mid.t "challenge_separator").2
  let c_inv := Scalar.invert c
  let c_powers_a := powList 1 c k
  let c_powers_b := powList (mulIter c (k - 1)) c_inv k
  let a_new := (List.range mid.m_j).map (fun jj =>
    (List.range k).foldl (fun acc i =>
      acc + (chunk mid.aP mid.m_j i).getD jj 0 * c_powers_a.getD i 0) 0)
  let b_new := (List.range mid.m_j).map (fun jj =>
    (List.range k).foldl (fun acc i =>
      acc + (chunk mid.bP mid.m_j i).getD jj 0 * c_powers_b.getD i 0) 0)
  let g_new := (List.range mid.m_j).map (fun jj =>
    vartime_multiscalar_mul c_powers_b
      ((List.range k).map (fun i => (chunk mid.gP mid.m_j i).getD jj 0)))
  let h_new := (List.range mid.m_j).map (fun jj =>
    vartime_multiscalar_mul c_powers_a
      ((List.range k).map (fun i => (chunk mid.hP mid.m_j i).getD jj 0)))
  { a := a_new, b := b_new, g := g_new, h := h_new, n_j := mid.m_j, t := t4,
    U_vecs := s.U_vecs ++ [mid.U_round] }

/-- `K_BulletProof::create` (the source asserts equal input lengths and
`k > 1`; theorems carry those as hypotheses). -/
def K_BulletProof.create (t : Transcript) (o : ChalOracle) (k : Nat)
    (g_vec h_vec : List RistrettoPoint) (Q_point : RistrettoPoint)
    (a_vec b_vec : List Scalar) (num_rounds : Nat) : K_BulletProof × Transcript :=
  let n := a_vec.length
  let t0 := append_message (append_message
    (append_message t "protocol-name" (strBytes "k_bullet_delay"))
    "n" (natToLE 8 n)) "k" (natToLE 8 k)
  let s0 : KState :=
    { a := a_vec, b := b_vec, g := g_vec, h := h_vec, n_j := n, t := t0, U_vecs := [] }
  let sfin := (List.range num_rounds).foldl (fun s j => kCreateRound o k Q_point j s) s0
  (⟨k, sfin.U_vecs, sfin.a, sfin.b⟩, sfin.t)

theorem powList_eq_map (start step : Scalar) (k : Nat) :
    powList start step k = (List.range k).map (fun i => start * step ^ i) := by
  induction k generalizing start with
  | zero => rfl
  | succ n ih =>
    rw [powList, ih, List.range_succ_eq_map]
    simp only [List.map_cons, List.map_map, pow_zero, mul_one]
    congr 1
    have hf : (fun i => start * step * step ^ i) =
        ((fun i => start * step ^ i) ∘ Nat.succ) := by
      funext i
      simp [Function.comp, pow_succ]
      ring
    rw [hf]

theorem powList_getD (start step : Scalar) (k i : Nat) (hi : i < k) :
    (powList start step k).getD i 0 = start * step ^ i := by
  rw [powList_eq_map]
  rw [List.getD_eq_getElem?_getD, List.getElem?_map, List.getElem?_range hi]
  rfl

theorem mulIter_eq_pow (c : Scalar) (n : Nat) : mulIter c n = c ^ n := by
  induction n with
  | zero => rfl
  | succ m ih => rw [mulIter, ih, pow_succ]

theorem foldl_add_eq_sum (k : Nat) (f : Nat → Scalar) :
    (List.range k).foldl (fun acc i => acc + f i) 0 = ∑ i ∈ Finset.range k, f i := by
  suffices h : ∀ (init : Scalar),
      (List.range k).foldl (fun acc i => acc + f i) init = init + ∑ i ∈ Finset.range k, f i by
    simpa using h 0
  induction k with
  | zero => intro init; simp
  | succ n ih =>
    intro init
    rw [List.range_succ, List.foldl_append, ih, Finset.sum_range_succ]
    simp [add_assoc]

theorem sum_map_range (k : Nat) (f : Nat → Scalar) :
    ((List.range k).map f).sum = ∑ i ∈ Finset.range k, f i := by
  induction k with
  | zero => simp
  | succ n ih =>
    rw [List.range_succ, List.map_append, List.sum_append, ih, Finset.sum_range_succ]
    simp

theorem zipWith_mul_map_range (k : Nat) (f : Nat → Scalar) (g : Nat → RistrettoPoint) :
    List.zipWith (fun s p => s * p) ((List.range k).map f) ((List.range k).map g) =
      (List.range k).map (fun i => f i * g i) := by
  suffices h : ∀ l : List Nat,
      List.zipWith (fun s p => s * p) (l.map f) (l.map g) = l.map (fun i => f i * g i) from
    h _
  intro l
  induction l with
  | nil => rfl
  | cons x xs ih => simp [ih]

theorem msm_map_range (k : Nat) (f : Nat → Scalar) (g : Nat → RistrettoPoint) :
    vartime_multiscalar_mul ((List.range k).map f) ((List.range k).map g) =
      ∑ i ∈ Finset.range k, f i * g i := by
  unfold vartime_multiscalar_mul
  rw [zipWith_mul_map_range, sum_map_range]

theorem getD_map_range {α : Type} (n : Nat) (f : Nat → α) (d : α) (i : Nat) (hi : i < n) :
    (((List.range n).map f).getD i d) = f i := by
  rw [List.getD_eq_getElem?_getD, List.getElem?_map, List.getElem?_range hi]
  rfl

theorem pow_cancel_of_invert (c : Scalar) (hc : c * Scalar.invert c = 1) (m i : Nat)
    (hi : i ≤ m) : c ^ m * Scalar.invert c ^ i = c ^ (m - i) := by
  have h1 : c ^ i * Scalar.invert c ^ i = 1 := by rw [← mul_pow, hc, one_pow]
  have h2 : m = (m - i) + i := by omega
  conv_lhs => rw [h2]
  rw [pow_add, mul_assoc, h1, mul_one]

/-- C2: in every round of `K_BulletProof::create` with `k ≥ 2`, writing `c`
for the round challenge and `a_i, b_i, G_i, H_i` for the `k` size-`m_j`
blocks of the padded vectors, the fold satisfies
`a_new[j] = Σ_i a_i[j]·c^i`, `b_new[j] = Σ_i b_i[j]·c^(k-1-i)`,
`G_new[j] = Σ_i c^(k-1-i)·G_i[j]`, and `H_new[j] = Σ_i c^i·H_i[j]`
(the generators fold with the exponent vectors swapped relative to the
witnesses). The hypothesis `c · c⁻¹ = 1` states that the derived challenge
is invertible, which fails only for the zero challenge. -/
theorem kCreateRound_fold (o : ChalOracle) (k : Nat) (Q_point : RistrettoPoint) (j : Nat)
    (s : KState) (hk : 2 ≤ k)
    (hc : kRoundChallenge o k Q_point j s * Scalar.invert (kRoundChallenge o k Q_point j s) = 1) :
    ∀ jj, jj < (kRoundMid k Q_point j s).m_j →
      ((kCreateRound o k Q_point j s).a.getD jj 0 =
        ∑ i ∈ Finset.range k,
          (chunk (kRoundMid k Q_point j s).aP (kRoundMid k Q_point j s).m_j i).getD jj 0 *
            kRoundChallenge o k Q_point j s ^ i) ∧
      ((kCreateRound o k Q_point j s).b.getD jj 0 =
        ∑ i ∈ Finset.range k,
          (chunk (kRoundMid k Q_point j s).bP (kRoundMid k Q_point j s).m_j i).getD jj 0 *
            kRoundChallenge o k Q_point j s ^ (k - 1 - i)) ∧
      ((kCreateRound o k Q_point j s).g.getD jj 0 =
        ∑ i ∈ Finset.range k,
          kRoundChallenge o k Q_point j s ^ (k - 1 - i) *
            (chunk (kRoundMid k Q_point j s).gP (kRoundMid k Q_point j s).m_j i).getD jj 0) ∧
      ((kCreateRound o k Q_point j s).h.getD jj 0 =
        ∑ i ∈ Finset.range k,
          kRoundChallenge o k Q_point j s ^ i *
            (chunk (kRoundMid k Q_point j s).hP (kRoundMid k Q_point j s).m_j i).getD jj 0) := by
  intro jj hjj
  refine ⟨?_, ?_, ?_, ?_⟩
  · simp only [kCreateRound]
    rw [getD_map_range _ _ _ _ hjj, foldl_add_eq_sum]
    refine Finset.sum_congr rfl fun i hi => ?_
    rw [powList_getD 1 _ k i (Finset.mem_range.mp hi), one_mul]
  · simp only [kCreateRound]
    rw [getD_map_range _ _ _ _ hjj, foldl_add_eq_sum]
    refine Finset.sum_congr rfl fun i hi => ?_
    rw [powList_getD _ _ k i (Finset.mem_range.mp hi), mulIter_eq_pow,
      pow_cancel_of_invert _ hc (k - 1) i (by have := Finset.mem_range.mp hi; omega)]
  · simp only [kCreateRound]
    rw [getD_map_range _ _ _ _ hjj, powList_eq_map, msm_map_range]
    refine Finset.sum_congr rfl fun i hi => ?_
    rw [mulIter_eq_pow,
      pow_cancel_of_invert _ hc (k - 1) i (by have := Finset.mem_range.mp hi; omega)]
  · simp only [kCreateRound]
    rw [getD_map_range _ _ _ _ hjj, powList_eq_map, msm_map_range]
    refine Finset.sum_congr rfl fun i hi => ?_
    rw [one_mul]

set_option maxHeartbeats 4000000 in
/-- Witness for C2 at the concrete round `j = 0`, `k = 2`, vectors
`a = [1,2], b = [3,4], G = [5,6], H = [7,8]`, `Q = 9`, all-ones oracle. -/
theorem kCreateRound_fold_witness :
    ((2 ≤ 2) ∧
     kRoundChallenge (fun _ _ => 1) 2 9 0 ⟨[1, 2], [3, 4], [5, 6], [7, 8], 2, [], []⟩ *
       Scalar.invert
         (kRoundChallenge (fun _ _ => 1) 2 9 0 ⟨[1, 2], [3, 4], [5, 6], [7, 8], 2, [], []⟩) = 1) ∧
    (∀ jj, jj < (kRoundMid 2 9 0 ⟨[1, 2], [3, 4], [5, 6], [7, 8], 2, [], []⟩).m_j →
      ((kCreateRound (fun _ _ => 1) 2 9 0 ⟨[1, 2], [3, 4], [5, 6], [7, 8], 2, [], []⟩).a.getD jj 0 =
        ∑ i ∈ Finset.range 2,
          (chunk (kRoundMid 2 9 0 ⟨[1, 2], [3, 4], [5, 6], [7, 8], 2, [], []⟩).aP
            (kRoundMid 2 9 0 ⟨[1, 2], [3, 4], [5, 6], [7, 8], 2, [], []⟩).m_j i).getD jj 0 *
            kRoundChallenge (fun _ _ => 1) 2 9 0 ⟨[1, 2], [3, 4], [5, 6], [7, 8], 2, [], []⟩ ^ i) ∧
      ((kCreateRound (fun _ _ => 1) 2 9 0 ⟨[1, 2], [3, 4], [5, 6], [7, 8], 2, [], []⟩).b.getD jj 0 =
        ∑ i ∈ Finset.range 2,
          (chunk (kRoundMid 2 9 0 ⟨[1, 2], [3, 4], [5, 6], [7, 8], 2, [], []⟩).bP
            (kRoundMid 2 9 0 ⟨[1, 2], [3, 4], [5, 6], [7, 8], 2, [], []⟩).m_j i).getD jj 0 *
            kRoundChallenge (fun _ _ => 1) 2 9 0 ⟨[1, 2], [3, 4], [5, 6], [7, 8], 2, [], []⟩ ^
              (2 - 1 - i)) ∧
      ((kCreateRound (fun _ _ => 1) 2 9 0 ⟨[1, 2], [3, 4], [5, 6], [7, 8], 2, [], []⟩).g.getD jj 0 =
        ∑ i ∈ Finset.range 2,
          kRoundChallenge (fun _ _ => 1) 2 9 0 ⟨[1, 2], [3, 4], [5, 6], [7, 8], 2, [], []⟩ ^
              (2 - 1 - i) *
            (chunk (kRoundMid 2 9 0 ⟨[1, 2], [3, 4], [5, 6], [7, 8], 2, [], []⟩).gP
              (kRoundMid 2 9 0 ⟨[1, 2], [3, 4], [5, 6], [7, 8], 2, [], []⟩).m_j i).getD jj 0) ∧
      ((kCreateRound (fun _ _ => 1) 2 9 0 ⟨[1, 2], [3, 4], [5, 6], [7, 8], 2, [], []⟩).h.getD jj 0 =
        ∑ i ∈ Finset.range 2,
          kRoundChallenge (fun _ _ => 1) 2 9 0 ⟨[1, 2], [3, 4], [5, 6], [7, 8], 2, [], []⟩ ^ i *
            (chunk (kRoundMid 2 9 0 ⟨[1, 2], [3, 4], [5, 6], [7, 8], 2, [], []⟩).hP
              (kRoundMid 2 9 0 ⟨[1, 2], [3, 4], [5, 6], [7, 8], 2, [], []⟩).m_j i).getD jj 0)) :=
  ⟨⟨by decide, by decide⟩,
   kCreateRound_fold (fun _ _ => 1) 2 9 0 ⟨[1, 2], [3, 4], [5, 6], [7, 8], 2, [], []⟩
     (by decide) (by decide)⟩

theorem kCreateRound_U_vecs (o : ChalOracle) (k : Nat) (Q : RistrettoPoint) (j : Nat)
    (s : KState) :
    (kCreateRound o k Q j s).U_vecs = s.U_vecs ++ [(kRoundMid k Q j s).U_round] := rfl

theorem kRoundMid_U_round_length (k : Nat) (Q : RistrettoPoint) (j : Nat) (s : KState) :
    (kRoundMid k Q j s).U_round.length = (k - 1) + (k - 1) := by
  simp [kRoundMid]

theorem kCreate_fold_U (o : ChalOracle) (k : Nat) (Q : RistrettoPoint) (js : List Nat)
    (s : KState) :
    ((js.foldl (fun s j => kCreateRound o k Q j s) s).U_vecs.length =
      s.U_vecs.length + js.length) ∧
    ((∀ rv ∈ s.U_vecs, rv.length = (k - 1) + (k - 1)) →
      ∀ rv ∈ (js.foldl (fun s j => kCreateRound o k Q j s) s).U_vecs,
        rv.length = (k - 1) + (k - 1)) := by
  induction js generalizing s with
  | nil => exact ⟨by simp, fun h => h⟩
  | cons j js ih =>
    simp only [List.foldl_cons, List.length_cons]
    refine ⟨?_, ?_⟩
    · rw [(ih (kCreateRound o k Q j s)).1, kCreateRound_U_vecs]
      simp
      omega
    · intro hins
      apply (ih (kCreateRound o k Q j s)).2
      intro rv hrv
      rw [kCreateRound_U_vecs] at hrv
      rcases List.mem_append.mp hrv with h | h
      · exact hins rv h
      · rw [List.mem_singleton.mp h]
        exact kRoundMid_U_round_length k Q j s

/-- C8 (amended): for `k = 2` the generalized argument stores exactly one
(L,R)-like pair of cross-term points per round (`2k-2 = 2`), one round per
fold step; its transcript labels and fold formulas are however its own and
do not replay the classical binary argument bit-for-bit. -/
theorem k2_single_pair_per_round (t : Transcript) (o : ChalOracle)
    (g_vec h_vec : List RistrettoPoint) (Q : RistrettoPoint)
    (a_vec b_vec : List Scalar) (d : Nat) :
    ((K_BulletProof.create t o 2 g_vec h_vec Q a_vec b_vec d).1).U_vecs.length = d ∧
    ∀ rv ∈ ((K_BulletProof.create t o 2 g_vec h_vec Q a_vec b_vec d).1).U_vecs,
      rv.length = 2 := by
  simp only [K_BulletProof.create]
  have h := kCreate_fold_U o 2 Q (List.range d)
  refine ⟨?_, ?_⟩
  · rw [(h _).1]
    simp
  · intro rv hrv
    exact (h _).2 (by simp) rv hrv

/-- Mutable loop state of `InnerProductProof::create`. -/
structure IPPState where
  a : List Scalar
  b : List Scalar
  G : List RistrettoPoint
  H : List RistrettoPoint
  n : Nat
  t : Transcript
  L_vec : List CompressedRistretto
  R_vec : List CompressedRistretto

/-- The first halving round of `InnerProductProof::create`, which applies
the `Hprime_factors` weighting. -/
def ippFirstRound (o : ChalOracle) (Q : RistrettoPoint) (Hprime_factors : List Scalar)
    (st : IPPState) : IPPState :=
  let n := st.n / 2
  let a_L := st.a.take n
  let a_R := st.a.drop n
  let b_L := st.b.take n
  let b_R := st.b.drop n
  let G_L := st.G.take n
  let G_R := st.G.drop n
  let H_L := st.H.take n
  let H_R := st.H.drop n
  let c_L := inner_product a_L b_R
  let c_R := inner_product a_R b_L
  let L := (vartime_multiscalar_mul
    (a_L ++ List.zipWith (fun bi yi => bi * yi) b_R (Hprime_factors.take n) ++ [c_L])
    (G_R ++ H_L ++ [Q])).compress
  let R := (vartime_multiscalar_mul
    (a_R ++ List.zipWith (fun bi yi => bi * yi) b_L ((Hprime_factors.drop n).take n) ++ [c_R])
    (G_L ++ H_R ++ [Q])).compress
  let t2 := commit_point (commit_point st.t "L" L) "R" R
  let u := (challenge_scalar o t2 "u").1
  let t3 := (challenge_scalar o t2 "u").2
  let u_inv := Scalar.invert u
  let a2 := (List.range n).map (fun i => a_L.getD i 0 * u + u_inv * a_R.getD i 0)
  let b2 := (List.range n).map (fun i => b_L.getD i 0 * u_inv + u * b_R.getD i 0)
  let G2 := (List.range n).map (fun i =>
    vartime_multiscalar_mul [u_inv, u] [G_L.getD i 0, G_R.getD i 0])
  let H2 := (List.range n).map (fun i =>
    vartime_multiscalar_mul
      [u * Hprime_factors.getD i 0, u_inv * Hprime_factors.getD (n + i) 0]
      [H_L.getD i 0, H_R.getD i 0])
  { a := a2, b := b2, G := G2, H := H2, n := n, t := t3,
    L_vec := st.L_vec ++ [L], R_vec := st.R_vec ++ [R] }

/-- A subsequent halving round of `InnerProductProof::create` (no factor
weighting). -/
def ippRound (o : ChalOracle) (Q : RistrettoPoint) (st : IPPState) : IPPState :=
  let n := st.n / 2
  let a_L := st.a.take n
  let a_R := st.a.drop n
  let b_L := st.b.take n
  let b_R := st.b.drop n
  let G_L := st.G.take n
  let G_R := st.G.drop n
  let H_L := st.H.take n
  let H_R := st.H.drop n
  let c_L := inner_product a_L b_R
  let c_R := inner_product a_R b_L
  let L := (vartime_multiscalar_mul (a_L ++ b_R ++ [c_L]) (G_R ++ H_L ++ [Q])).compress
  let R := (vartime_multiscalar_mul (a_R ++ b_L ++ [c_R]) (G_L ++ H_R ++ [Q])).compress
  let t2 := commit_point (commit_point st.t "L" L) "R" R
  let u := (challenge_scalar o t2 "u").1
  let t3 := (challenge_scalar o t2 "u").2
  let u_inv := Scalar.invert u
  let a2 := (List.range n).map (fun i => a_L.getD i 0 * u + u_inv * a_R.getD i 0)
  let b2 := (List.range n).map (fun i => b_L.getD i 0 * u_inv + u * b_R.getD i 0)
  let G2 := (List.range n).map (fun i =>
    vartime_multiscalar_mul [u_inv, u] [G_L.getD i 0, G_R.getD i 0])
  let H2 := (List.range n).map (fun i =>
    vartime_multiscalar_mul [u, u_inv] [H_L.getD i 0, H_R.getD i 0])
  { a := a2, b := b2, G := G2, H := H2, n := n, t := t3,
    L_vec := st.L_vec ++ [L], R_vec := st.R_vec ++ [R] }

/-- The `while n != 1` loop of `InnerProductProof::create`, fuelled (the
length halves each round, so fuel `n` suffices for any power of two). -/
def ippLoop (o : ChalOracle) (Q : RistrettoPoint) : Nat → IPPState → IPPState
  | 0, st => st
  | f + 1, st => if st.n = 1 then st else ippLoop o Q f (ippRound o Q st)

/-- `InnerProductProof::create` (the source asserts that all input vectors
share a power-of-two length). -/
def InnerProductProof.create (transcript : Transcript) (o : ChalOracle)
    (Q : RistrettoPoint) (Hprime_factors : List Scalar)
    (G_vec H_vec : List RistrettoPoint) (a_vec b_vec : List Scalar) :
    InnerProductProof × Transcript :=
  let n := G_vec.length
  let t0 := innerproduct_domain_sep transcript n
  let st0 : IPPState := ⟨a_vec, b_vec, G_vec, H_vec, n, t0, [], []⟩
  let st1 := if n ≠ 1 then ippFirstRound o Q Hprime_factors st0 else st0
  let stf := ippLoop o Q st1.n st1
  (⟨stf.L_vec, stf.R_vec, stf.a.getD 0 0, stf.b.getD 0 0⟩, stf.t)

/-- C8 counterexample: on the same inputs (`n = 2`, all-zero vectors and
points, all-ones factors, the same empty initial transcript and the same
challenge oracle) the two provers absorb different labeled bytes: the final
transcripts differ, so the absorbs are not bit-for-bit identical and the
derived challenges are not bound to the same data. -/
theorem k2_transcript_differs :
    (K_BulletProof.create [] (fun _ _ => 1) 2 [0, 0] [0, 0] 0 [0, 0] [0, 0] 1).2 ≠
      (InnerProductProof.create [] (fun _ _ => 1) 0 [1, 1] [0, 0] [0, 0] [0, 0] [0, 0]).2 := by
  decide

/-- Mutable loop state of `batched_eCP::create`. -/
structure EState where
  a : List Scalar
  G : List RistrettoPoint
  C1 : List RistrettoPoint
  n_j : Nat
  t : Transcript
  A_vecs : List (List (CompressedRistretto × CompressedRistretto))

/-- One round of `batched_eCP::create`: pad, split, the two triangular
cross-term loops over both generator sets, the transcript absorbs, the
challenge and the fold. -/
def eCreateRound (o : ChalOracle) (k : Nat) (round_idx : Nat) (s : EState) : EState :=
  let rem := s.n_j % k
  let pad := if rem = 0 then 0 else k - rem
  let aP := s.a ++ List.replicate pad (0 : Scalar)
  let GP := s.G ++ List.replicate pad (0 : RistrettoPoint)
  let C1P := s.C1 ++ List.replicate pad (0 : RistrettoPoint)
  let m_j := (s.n_j + pad) / k
  let firstLoop := (List.range (k - 1)).map (fun i0 =>
    let i := i0 + 1
    let scalars := ((List.range i).map (fun l0 => chunk aP m_j l0)).flatten
    let points0 := ((List.range i).map (fun l0 => chunk GP m_j (k - i + l0))).flatten
    let points1 := ((List.range i).map (fun l0 => chunk C1P m_j (k - i + l0))).flatten
    (vartime_multiscalar_mul scalars points0, vartime_multiscalar_mul scalars points1))
  let secondLoop := (List.range (k - 1)).map (fun i0 =>
    let i := i0 + 1
    let scalars := ((List.range (k - i)).map (fun l0 => chunk aP m_j (i + l0))).flatten
    let points0 := ((List.range (k - i)).map (fun l0 => chunk GP m_j l0)).flatten
    let points1 := ((List.range (k - i)).map (fun l0 => chunk C1P m_j l0)).flatten
    (vartime_multiscalar_mul scalars points0, vartime_multiscalar_mul scalars points1))
  let A_points_round := firstLoop ++ secondLoop
  let A_vecs_round := A_points_round.map (fun pr => (pr.1.compress, pr.2.compress))
  let t1 := A_vecs_round.enum.foldl (fun tc pr =>
    commit_point (commit_point
      (append_message (append_message tc "A_round" (natToLE 8 round_idx))
        "A_index" (natToLE 8 pr.1))
      "A_point_0" pr.2.1) "A_point_1" pr.2.2) s.t
  let t2 := append_message t1 "challenge_prefix" (strBytes "c_")
  let t3 := append_message t2 "challenge_index" (natToLE 8 round_idx)
  let c := (challenge_scalar o t3 "challenge_separator").1
  let t4 := (challenge_scalar o t3 "challenge_separator").2
  let c_powers_a := powList 1 c k
  let a_new := (List.range m_j).map (fun jj =>
    (List.range k).foldl (fun acc i =>
      acc + (chunk aP m_j i).getD jj 0 * c_powers_a.getD i 0) 0)
  let c_inv := Scalar.invert c
  let c_powers_bases := powList (scalar_pow c k) c_inv k
  let G_new := (List.range m_j).map (fun jj =>
    vartime_multiscalar_mul c_powers_bases
      ((List.range k).map (fun i => (chunk GP m_j i).getD jj 0)))
  let C1_new := (List.range m_j).map (fun jj =>
    vartime_multiscalar_mul c_powers_bases
      ((List.range k).map (fun i => (chunk C1P m_j i).getD jj 0)))
  { a := a_new, G := G_new, C1 := C1_new, n_j := m_j, t := t4,
    A_vecs := s.A_vecs ++ [A_vecs_round] }

/-- `batched_eCP::create`: right-pads a short `C1_vec` with the identity
element up to `a_vec`'s length, then runs `num_rounds` folding rounds. -/
def batched_eCP.create (transcript : Transcript) (o : ChalOracle) (k : Nat)
    (G_vec C1_vec : List RistrettoPoint) (a_vec : List Scalar) (num_rounds : Nat) :
    batched_eCP × Transcript :=
  let n := a_vec.length
  let C1_curr := if C1_vec.length < n then
    C1_vec ++ List.replicate (n - C1_vec.length) (0 : RistrettoPoint) else C1_vec
  let t0 := append_message (append_message
    (append_message transcript "protocol-name" (strBytes "k_ipp_delay_2"))
    "n" (natToLE 8 n)) "k" (natToLE 8 k)
  let s0 : EState := ⟨a_vec, G_vec, C1_curr, n, t0, []⟩
  let sfin := (List.range num_rounds).foldl (fun s j => eCreateRound o k j s) s0
  (⟨k, sfin.A_vecs, sfin.a⟩, sfin.t)

theorem eCreateRound_n_j (o : ChalOracle) (k j : Nat) (s : EState) :
    (eCreateRound o k j s).n_j = padDivStep k s.n_j := rfl

theorem eCreateRound_a_length (o : ChalOracle) (k j : Nat) (s : EState) :
    (eCreateRound o k j s).a.length = padDivStep k s.n_j := by
  simp [eCreateRound, padDivStep]

theorem eCreateRound_A_len (o : ChalOracle) (k j : Nat) (s : EState) :
    (eCreateRound o k j s).A_vecs.length = s.A_vecs.length + 1 := by
  simp [eCreateRound]

theorem eCreateRound_A_mem (o : ChalOracle) (k j : Nat) (s : EState) :
    ∀ rv ∈ (eCreateRound o k j s).A_vecs,
      rv ∈ s.A_vecs ∨ rv.length = (k - 1) + (k - 1) := by
  intro rv hrv
  simp only [eCreateRound] at hrv
  rcases List.mem_append.mp hrv with h | h
  · exact Or.inl h
  · right
    rw [List.mem_singleton.mp h]
    simp

theorem reconstruct_shift (n k d : Nat) :
    (reconstruct_round_lengths n k (d + 1)).getD (d + 1) 0 =
      (reconstruct_round_lengths (padDivStep k n) k d).getD d 0 := by
  rw [reconstruct_round_lengths, rrlGo_cons]
  rfl

theorem eCreate_fold (o : ChalOracle) (k : Nat) (js : List Nat) (s : EState)
    (hs : s.a.length = s.n_j) :
    ((js.foldl (fun s j => eCreateRound o k j s) s).n_j =
      (reconstruct_round_lengths s.n_j k js.length).getD js.length 0) ∧
    ((js.foldl (fun s j => eCreateRound o k j s) s).a.length =
      (js.foldl (fun s j => eCreateRound o k j s) s).n_j) ∧
    ((js.foldl (fun s j => eCreateRound o k j s) s).A_vecs.length =
      s.A_vecs.length + js.length) ∧
    ((∀ rv ∈ s.A_vecs, rv.length = (k - 1) + (k - 1)) →
      ∀ rv ∈ (js.foldl (fun s j => eCreateRound o k j s) s).A_vecs,
        rv.length = (k - 1) + (k - 1)) := by
  induction js generalizing s with
  | nil =>
    exact ⟨by simp [reconstruct_round_lengths], hs, by simp, fun h => h⟩
  | cons j js ih =>
    simp only [List.foldl_cons, List.length_cons]
    obtain ⟨ih1, ih2, ih3, ih4⟩ := ih (eCreateRound o k j s)
      (by rw [eCreateRound_a_length, eCreateRound_n_j])
    refine ⟨?_, ih2, ?_, ?_⟩
    · rw [ih1, eCreateRound_n_j, ← reconstruct_shift s.n_j k js.length]
    · rw [ih3, eCreateRound_A_len]
      omega
    · intro hin
      apply ih4
      intro rv hrv
      rcases eCreateRound_A_mem o k j s rv hrv with h | h
      · exact hin rv h
      · exact h

/-- C10: when `C1_vec` is shorter than `a_vec`, `batched_eCP::create`
right-pads it with the default (identity) element up to `a_vec`'s length
and proceeds, producing exactly the proof it would produce on the
already-padded `C1_vec`: `d` rounds of `2k-2` point pairs each and a final
vector of the recomputed length `m`. -/
theorem batched_eCP_create_pads_C1 (t : Transcript) (o : ChalOracle) (k : Nat)
    (G_vec C1_vec : List RistrettoPoint) (a_vec : List Scalar) (d : Nat)
    (hk : 2 ≤ k) (hC : C1_vec.length < a_vec.length) :
    (batched_eCP.create t o k G_vec C1_vec a_vec d =
      batched_eCP.create t o k G_vec
        (C1_vec ++ List.replicate (a_vec.length - C1_vec.length) 0) a_vec d) ∧
    ((batched_eCP.create t o k G_vec C1_vec a_vec d).1).A_vecs.length = d ∧
    (∀ rv ∈ ((batched_eCP.create t o k G_vec C1_vec a_vec d).1).A_vecs,
      rv.length = 2 * k - 2) ∧
    ((batched_eCP.create t o k G_vec C1_vec a_vec d).1).z.length =
      (reconstruct_round_lengths a_vec.length k d).getD d 0 := by
  have hfold := eCreate_fold o k (List.range d)
    ⟨a_vec, G_vec,
      C1_vec ++ List.replicate (a_vec.length - C1_vec.length) (0 : RistrettoPoint),
      a_vec.length,
      append_message (append_message
        (append_message t "protocol-name" (strBytes "k_ipp_delay_2"))
        "n" (natToLE 8 a_vec.length)) "k" (natToLE 8 k), []⟩ rfl
  have hpadeq : (if C1_vec.length < a_vec.length then
      C1_vec ++ List.replicate (a_vec.length - C1_vec.length) (0 : RistrettoPoint)
      else C1_vec) =
      C1_vec ++ List.replicate (a_vec.length - C1_vec.length) (0 : RistrettoPoint) :=
    if_pos hC
  have hpadlen : (C1_vec ++
      List.replicate (a_vec.length - C1_vec.length) (0 : RistrettoPoint)).length =
      a_vec.length := by
    simp
    omega
  constructor
  · simp only [batched_eCP.create, hpadeq, hpadlen]
    rw [if_neg (by omega)]
  · simp only [batched_eCP.create, hpadeq]
    refine ⟨?_, ?_, ?_⟩
    · rw [hfold.2.2.1]
      simp
    · intro rv hrv
      have := hfold.2.2.2 (by simp) rv hrv
      omega
    · rw [hfold.2.1, hfold.1]
      simp

/-- Witness for C10 at `k = 2`, `G = [1,2]`, `C1 = [3]`, `a = [4,5]`,
one round, all-ones oracle. -/
theorem batched_eCP_create_pads_C1_witness :
    ((2 ≤ 2) ∧
      ([3] : List RistrettoPoint).length < ([4, 5] : List Scalar).length) ∧
    ((batched_eCP.create [] (fun _ _ => 1) 2 [1, 2] [3] [4, 5] 1 =
      batched_eCP.create [] (fun _ _ => 1) 2 [1, 2]
        ([3] ++ List.replicate (([4, 5] : List Scalar).length - ([3] : List RistrettoPoint).length) 0)
        [4, 5] 1) ∧
    ((batched_eCP.create [] (fun _ _ => 1) 2 [1, 2] [3] [4, 5] 1).1).A_vecs.length = 1 ∧
    (∀ rv ∈ ((batched_eCP.create [] (fun _ _ => 1) 2 [1, 2] [3] [4, 5] 1).1).A_vecs,
      rv.length = 2 * 2 - 2) ∧
    ((batched_eCP.create [] (fun _ _ => 1) 2 [1, 2] [3] [4, 5] 1).1).z.length =
      (reconstruct_round_lengths ([4, 5] : List Scalar).length 2 1).getD 1 0) :=
  ⟨⟨by decide, by decide⟩,
   batched_eCP_create_pads_C1 [] (fun _ _ => 1) 2 [1, 2] [3] [4, 5] 1
     (by decide) (by decide)⟩

/-- The `usize` expression `k - 1` cast to `u64`, with release-mode
wrapping semantics (underflows at `k = 0`). -/
def usize_sub_one (k : Nat) : Nat := (k + (U64SIZE - 1)) % U64SIZE

/-- The challenge-replay loop of `K_BulletProof::verification_scalars`:
absorb the stored round points (round and point index in the labels) and
re-derive each round challenge; `none` models the panic of indexing a round
shorter than `2k-2`. -/
def kvsAbsorbRounds (o : ChalOracle) (ppr : Nat) :
    List (List CompressedRistretto) → Nat → Transcript →
    Option (List Scalar × Transcript)
  | [], _, t => some ([], t)
  | rv :: rest, r, t =>
    if rv.length < ppr then none
    else
      let t1 := (List.range ppr).foldl (fun tc i =>
        commit_point (append_message (append_message tc "U_round" (natToLE 8 r))
          "U_index" (natToLE 8 i)) "U_point" (rv.getD i [])) t
      let t2 := append_message t1 "challenge_prefix" (strBytes "c_")
      let t3 := append_message t2 "challenge_index" (natToLE 8 r)
      let c := (challenge_scalar o t3 "challenge_separator").1
      let t4 := (challenge_scalar o t3 "challenge_separator").2
      match kvsAbsorbRounds o ppr rest (r + 1) t4 with
      | none => none
      | some (cs, tf) => some (c :: cs, tf)

/-- The reverse-accumulated suffix products: `sp[r] = Π_{j>r} v_j`, plus
the total product (the source's `c_k_minus_1_products` / `c_k_products`
loop and its final `product_so_far`). -/
def suffixProds : List Scalar → List Scalar × Scalar
  | [] => ([], 1)
  | v :: rest =>
    let (l, p) := suffixProds rest
    (p :: l, v * p)

/-- One backward blow-up-and-truncate step of the verification-scalar
reconstruction: tensor with the `k` powers of `cb` and truncate to the
round's pre-padding length. -/
def blowUpStep (k : Nat) (cb : Scalar) (len : Nat) (s : List Scalar) : List Scalar :=
  (((powList 1 cb k).map (fun b => s.map (fun v => v * b))).flatten).take len

/-- `K_BulletProof::verification_scalars`; returns the tuple
`(s_g_full, s_h_full, s_Q_final, s_P, s_U)` and the advanced transcript.
`none` models the indexing panic on malformed rounds. -/
def K_BulletProof.verification_scalars (p : K_BulletProof) (n : Nat) (t : Transcript)
    (o : ChalOracle) :
    Option (Except ProofError
      ((List Scalar × List Scalar × Scalar × Scalar × List Scalar) × Transcript)) :=
  if n = 0 then some (.error ProofError.InvalidGeneratorsLength)
  else
    let d := p.U_vecs.length
    let round_lengths := reconstruct_round_lengths n p.k d
    let m := round_lengths.getD d 0
    if p.a_final.length ≠ m ∨ p.b_final.length ≠ m then
      some (.error ProofError.VerificationError)
    else
      let t0 := append_message (append_message
        (append_message t "protocol-name" (strBytes "k_bullet_delay"))
        "n" (natToLE 8 n)) "k" (natToLE 8 p.k)
      match kvsAbsorbRounds o (usize_two_k_sub_two p.k) p.U_vecs 0 t0 with
      | none => none
      | some (challenges, t1) =>
        let challenges_inv := challenges.map Scalar.invert
        let sp := suffixProds (challenges.map (fun c => scalar_pow c (usize_sub_one p.k)))
        let c_k_minus_1_products := sp.1
        let s_P := sp.2
        let s_g_pre := ((List.range d).reverse).foldl (fun sg r =>
          blowUpStep p.k (challenges_inv.getD r 0) (round_lengths.getD r 0) sg) p.a_final
        let s_g_full := s_g_pre.map (fun x => x * s_P)
        let s_h_full := ((List.range d).reverse).foldl (fun sh r =>
          blowUpStep p.k (challenges.getD r 0) (round_lengths.getD r 0) sh) p.b_final
        let s_Q_final := inner_product p.a_final p.b_final
        let s_U := ((List.range d).map (fun r =>
          let c_r := challenges.getD r 0
          let suffix_prod := c_k_minus_1_products.getD r 0
          ((List.range (p.k - 1)).map (fun l0 =>
            scalar_pow c_r (p.k - 1 - (l0 + 1)) * suffix_prod)) ++
          ((List.range (p.k - 1)).map (fun l0 =>
            scalar_pow c_r (p.k - 1 + (l0 + 1)) * suffix_prod)))).flatten
        some (.ok ((s_g_full, s_h_full, s_Q_final, s_P, s_U), t1))

/-- The challenge-replay loop of `batched_eCP::verification_scalars`
(pairs of points per index). -/
def evsAbsorbRounds (o : ChalOracle) (ppr : Nat) :
    List (List (CompressedRistretto × CompressedRistretto)) → Nat → Transcript →
    Option (List Scalar × Transcript)
  | [], _, t => some ([], t)
  | rv :: rest, r, t =>
    if rv.length < ppr then none
    else
      let t1 := (List.range ppr).foldl (fun tc i =>
        commit_point (commit_point
          (append_message (append_message tc "A_round" (natToLE 8 r))
            "A_index" (natToLE 8 i))
          "A_point_0" (rv.getD i ([], [])).1) "A_point_1" (rv.getD i ([], [])).2) t
      let t2 := append_message t1 "challenge_prefix" (strBytes "c_")
      let t3 := append_message t2 "challenge_index" (natToLE 8 r)
      let c := (challenge_scalar o t3 "challenge_separator").1
      let t4 := (challenge_scalar o t3 "challenge_separator").2
      match evsAbsorbRounds o ppr rest (r + 1) t4 with
      | none => none
      | some (cs, tf) => some (c :: cs, tf)

/-- `batched_eCP::verification_scalars`; returns `(z_s_vec, s_P, s_A_vec)`
and the advanced transcript. -/
def batched_eCP.verification_scalars (p : batched_eCP) (n : Nat) (t : Transcript)
    (o : ChalOracle) :
    Option (Except ProofError ((List Scalar × Scalar × List Scalar) × Transcript)) :=
  let d := p.A_vecs.length
  let round_lengths := reconstruct_round_lengths n p.k d
  let m := round_lengths.getD d 0
  if p.z.length ≠ m then some (.error ProofError.VerificationError)
  else
    let t0 := append_message (append_message
      (append_message t "protocol-name" (strBytes "k_ipp_delay_2"))
      "n" (natToLE 8 n)) "k" (natToLE 8 p.k)
    match evsAbsorbRounds o (usize_two_k_sub_two p.k) p.A_vecs 0 t0 with
    | none => none
    | some (challenges, t1) =>
      let challenges_inv := challenges.map Scalar.invert
      let sp := suffixProds (challenges.map (fun c => scalar_pow c p.k))
      let c_k_products := sp.1
      let s_P := sp.2
      let z_s_pre := ((List.range d).reverse).foldl (fun zs r =>
        blowUpStep p.k (challenges_inv.getD r 0) (round_lengths.getD r 0) zs) p.z
      let z_s_vec := z_s_pre.map (fun x => x * s_P)
      let s_A_vec := ((List.range d).map (fun r =>
        let c_r := challenges.getD r 0
        let suffix_prod := c_k_products.getD r 0
        ((List.range (p.k - 1)).map (fun i0 =>
          scalar_pow c_r (i0 + 1) * suffix_prod)) ++
        ((List.range (p.k - 1)).map (fun i0 =>
          scalar_pow c_r (p.k + (i0 + 1)) * suffix_prod)))).flatten
      some (.ok ((z_s_vec, s_P, s_A_vec), t1))

/-- C4 (amended): a recomputed final length `m` that differs from the
proof's final-vector lengths is rejected with `VerificationError` — for
`K_BulletProof::verification_scalars` whenever `n ≥ 1` (at `n = 0` the
earlier guard returns `InvalidGeneratorsLength` instead), and for
`batched_eCP::verification_scalars` for every `n`. -/
theorem verification_scalars_length_check :
    (∀ (p : K_BulletProof) (n : Nat) (t : Transcript) (o : ChalOracle), 1 ≤ n →
      (p.a_final.length ≠
        (reconstruct_round_lengths n p.k p.U_vecs.length).getD p.U_vecs.length 0 ∨
       p.b_final.length ≠
        (reconstruct_round_lengths n p.k p.U_vecs.length).getD p.U_vecs.length 0) →
      K_BulletProof.verification_scalars p n t o =
        some (.error ProofError.VerificationError)) ∧
    (∀ (p : batched_eCP) (n : Nat) (t : Transcript) (o : ChalOracle),
      p.z.length ≠
        (reconstruct_round_lengths n p.k p.A_vecs.length).getD p.A_vecs.length 0 →
      batched_eCP.verification_scalars p n t o =
        some (.error ProofError.VerificationError)) := by
  constructor
  · intro p n t o hn hne
    unfold K_BulletProof.verification_scalars
    rw [if_neg (by omega), if_pos hne]
  · intro p n t o hne
    unfold batched_eCP.verification_scalars
    rw [if_pos hne]

/-- Witness for C4 (amended): a `K_BulletProof` with one final scalar but a
claimed length recomputing to `m = 2` (`n = 3, k = 2, d = 1` pads 3 to 4
and divides), and a `batched_eCP` with the same shape mismatch. -/
theorem verification_scalars_length_check_witness :
    ((1 ≤ 3) ∧
      (([(1 : Scalar)] : List Scalar).length ≠
        (reconstruct_round_lengths 3 2 1).getD 1 0 ∨
       ([(1 : Scalar)] : List Scalar).length ≠
        (reconstruct_round_lengths 3 2 1).getD 1 0)) ∧
    K_BulletProof.verification_scalars
      ⟨2, [[RistrettoPoint.compress 3, RistrettoPoint.compress 4]], [1], [1]⟩ 3 []
      (fun _ _ => 1) = some (.error ProofError.VerificationError) ∧
    batched_eCP.verification_scalars
      ⟨2, [[(RistrettoPoint.compress 3, RistrettoPoint.compress 4)]], [1]⟩ 3 []
      (fun _ _ => 1) = some (.error ProofError.VerificationError) :=
  ⟨⟨by decide, by decide⟩,
   verification_scalars_length_check.1
     ⟨2, [[RistrettoPoint.compress 3, RistrettoPoint.compress 4]], [1], [1]⟩ 3 []
     (fun _ _ => 1) (by decide) (by decide),
   verification_scalars_length_check.2
     ⟨2, [[(RistrettoPoint.compress 3, RistrettoPoint.compress 4)]], [1]⟩ 3 []
     (fun _ _ => 1) (by decide)⟩

/-- C4 counterexample: at claimed length `n = 0` (where the recomputed `m`
is `0` and differs from the stored final length `1`),
`K_BulletProof::verification_scalars` returns `InvalidGeneratorsLength`,
not `VerificationError` as the claim states. -/
theorem kvs_n_zero_not_verification_error :
    (([(1 : Scalar)] : List Scalar).length ≠ (reconstruct_round_lengths 0 2 0).getD 0 0) ∧
    K_BulletProof.verification_scalars ⟨2, [], [1], [1]⟩ 0 [] (fun _ _ => 1) =
      some (.error ProofError.InvalidGeneratorsLength) ∧
    K_BulletProof.verification_scalars ⟨2, [], [1], [1]⟩ 0 [] (fun _ _ => 1) ≠
      some (.error ProofError.VerificationError) := by
  refine ⟨by decide, by decide, by decide⟩

/-- Modelled from the spec: the generator set supplies `G_i`, `H_i` usable
in slices of arbitrary prefix length, with a declared capacity (§2);
`share(0)` is the single-party view. -/
structure BulletproofGens where
  gens_capacity : Nat
  Gv : List RistrettoPoint
  Hv : List RistrettoPoint

def BulletproofGens.G (g : BulletproofGens) (n : Nat) : List RistrettoPoint := g.Gv.take n

def BulletproofGens.H (g : BulletproofGens) (n : Nat) : List RistrettoPoint := g.Hv.take n

/-- Modelled from the spec: the two Pedersen base points (§2). -/
structure PedersenGens where
  B : RistrettoPoint
  B_blinding : RistrettoPoint

/-- Wire identifiers of the constraint system (`r1cs` module). -/
inductive Variable where
  | MultiplierLeft (i : Nat)
  | MultiplierRight (i : Nat)
  | MultiplierOutput (i : Nat)
  | Committed (i : Nat)
  | One
deriving DecidableEq

/-- A linear combination of wires with scalar coefficients. -/
structure LinearCombination where
  terms : List (Variable × Scalar)

/-- The verifier-side constraint system state (`VerifierCS`). -/
structure VerifierCS where
  bp_gens : BulletproofGens
  pc_gens : PedersenGens
  transcript : Transcript
  constraints : List LinearCombination
  num_vars : Nat
  V : List CompressedRistretto
  num_inputs : Nat

/-- Accumulator of `flattened_constraints`. -/
structure FlatAcc where
  wL : List Scalar
  wR : List Scalar
  wO : List Scalar
  wV : List Scalar
  wc : Scalar
  exp_z : Scalar

/-- `VerifierCS::flattened_constraints`: flatten the constraints into
`(wL, wR, wO, wV, wc)` using increasing powers of `z` per constraint (in
Rust an out-of-range wire index would panic; `List.set` ignores it, and
the verification theorem carries constraint well-formedness as a
hypothesis). -/
def flattened_constraints (cs : VerifierCS) (z : Scalar) :
    List Scalar × List Scalar × List Scalar × List Scalar × Scalar :=
  let init : FlatAcc :=
    { wL := List.replicate cs.num_vars 0, wR := List.replicate cs.num_vars 0,
      wO := List.replicate cs.num_vars 0, wV := List.replicate cs.num_inputs 0,
      wc := 0, exp_z := z }
  let res := cs.constraints.foldl (fun st lc =>
    let st2 := lc.terms.foldl (fun st2 term =>
      match term.1 with
      | Variable.MultiplierLeft i =>
        { st2 with wL := st2.wL.set i (st2.wL.getD i 0 + st2.exp_z * term.2) }
      | Variable.MultiplierRight i =>
        { st2 with wR := st2.wR.set i (st2.wR.getD i 0 + st2.exp_z * term.2) }
      | Variable.MultiplierOutput i =>
        { st2 with wO := st2.wO.set i (st2.wO.getD i 0 + st2.exp_z * term.2) }
      | Variable.Committed i =>
        { st2 with wV := st2.wV.set i (st2.wV.getD i 0 - st2.exp_z * term.2) }
      | Variable.One =>
        { st2 with wc := st2.wc - st2.exp_z * term.2 }) st
    { st2 with exp_z := st2.exp_z * z }) init
  (res.wL, res.wR, res.wO, res.wV, res.wc)

/-- `util::exp_iter`: the powers `1, x, x², ...`. -/
def exp_iter (x : Scalar) (n : Nat) : List Scalar := powList 1 x n

/-- The source's `collect::<Option<Vec<_>>>()`: all-or-nothing collection
of decompression results. -/
def collectOption {α : Type} : List (Option α) → Option (List α)
  | [] => some []
  | none :: _ => none
  | some x :: rest =>
    match collectOption rest with
    | none => none
    | some xs => some (x :: xs)

theorem collectOption_isSome {α : Type} (l : List (Option α)) (res : List α)
    (h : collectOption l = some res) : ∀ x ∈ l, x.isSome := by
  induction l generalizing res with
  | nil => intro x hx; cases hx
  | cons y ys ih =>
    intro x hx
    cases y with
    | none => simp [collectOption] at h
    | some v =>
      rcases List.mem_cons.mp hx with hx | hx
      · rw [hx]; rfl
      · simp only [collectOption] at h
        rcases hcr : collectOption ys with _ | rs
        · rw [hcr] at h; simp at h
        · exact ih rs hcr x hx

/-- The fixed transcript-replay prefix of `VerifierCS::verify`: absorb the
proof's commitments and scalars in the source's order and derive the
challenges `y, z, x, x_prime, x_ipp, w_agg`. -/
structure VChals where
  y : Scalar
  z : Scalar
  x : Scalar
  x_prime : Scalar
  x_ipp : Scalar
  w_agg : Scalar
  t : Transcript

def vChallengeStage (cs : VerifierCS) (proof : R1CSProof) (o : ChalOracle) : VChals :=
  let t0 := commit_point (commit_point (commit_point cs.transcript "A_I" proof.A_I)
    "A_O" proof.A_O) "S" proof.S
  let y := (challenge_scalar o t0 "y").1
  let t1 := (challenge_scalar o t0 "y").2
  let z := (challenge_scalar o t1 "z").1
  let t2 := (challenge_scalar o t1 "z").2
  let t3 := commit_point (commit_point (commit_point (commit_point (commit_point
    (commit_point t2 "T_1" proof.T_1) "T_3" proof.T_3) "T_4" proof.T_4)
    "T_5" proof.T_5) "T_6" proof.T_6) "T_2" proof.T_2
  let x := (challenge_scalar o t3 "x").1
  let t4 := (challenge_scalar o t3 "x").2
  let t5 := commit_scalar (commit_scalar (commit_scalar t4 "t_x" proof.t_x)
    "t_x_blinding" proof.t_x_blinding) "e_blinding" proof.e_blinding
  let t6 := commit_point (commit_point (commit_point (commit_point t5
    "S_prime" proof.S_prime) "T_1_prime" proof.T_1_prime)
    "S1_prime" proof.S1_prime) "S2_prime" proof.S2_prime
  let x_prime := (challenge_scalar o t6 "x_prime").1
  let t7 := (challenge_scalar o t6 "x_prime").2
  let t8 := commit_scalar (commit_scalar (commit_scalar (commit_scalar t7
    "tc_x" proof.tc_x) "tc_x_blinding" proof.tc_x_blinding)
    "ec_blinding" proof.ec_blinding) "r_blinding" proof.r_blinding
  let t9 := commit_scalar t8 "t_cross" proof.t_cross
  let x_ipp := (challenge_scalar o t9 "x_ipp").1
  let t10 := (challenge_scalar o t9 "x_ipp").2
  let w_agg := (challenge_scalar o t10 "w_agg").1
  let t11 := (challenge_scalar o t10 "w_agg").2
  ⟨y, z, x, x_prime, x_ipp, w_agg, t11⟩

/-- The U-point decompression loop of `VerifierCS::verify`: indices
`0 .. 2*k_fold-2` of every stored round. Outer `none` models the indexing
panic on a too-short round; inner `none` a decompression failure. -/
def uDecompressStage (k_fold : Nat) (U_vecs : List (List CompressedRistretto)) :
    Option (Option (List RistrettoPoint)) :=
  let ppr := usize_two_k_sub_two k_fold
  if U_vecs.all (fun rv => ppr ≤ rv.length) then
    some (collectOption
      ((U_vecs.map (fun rv => rv.take ppr)).flatten.map CompressedRistretto.decompress))
  else none

/-- The point list of the final mega-check multiscalar multiplication, in
the source's order, before the all-or-nothing decompression collect. -/
def combinedPointsOpt (cs : VerifierCS) (proof : R1CSProof)
    (C1_prime C2_prime C : List RistrettoPoint)
    (U_points_decompressed_cir : List RistrettoPoint) : List (Option RistrettoPoint) :=
  [proof.A_I.decompress, proof.A_O.decompress, proof.S.decompress,
   cs.V.head?.bind CompressedRistretto.decompress,
   proof.S_prime.decompress, some cs.pc_gens.B, some cs.pc_gens.B_blinding] ++
  (cs.bp_gens.G cs.num_inputs).map some ++
  (cs.bp_gens.H cs.num_inputs).map some ++
  U_points_decompressed_cir.map some ++
  [proof.T_1_prime.decompress, proof.T_2.decompress] ++
  ([proof.T_1, proof.T_2, proof.T_3, proof.T_4, proof.T_5, proof.T_6]).map
    CompressedRistretto.decompress ++
  [proof.S1_prime.decompress, proof.S2_prime.decompress,
   some (C.getD 0 0), some (C.getD 1 0)] ++
  C1_prime.map some ++ C2_prime.map some ++
  proof.ecp_batched.A_vecs.flatten.map (fun A => A.1.decompress) ++
  proof.ecp_batched.A_vecs.flatten.map (fun A => A.2.decompress)

/-- `VerifierCS::verify` up to the final identity comparison: every early
`return Err(..)` of the source is an `Except.error`, every Rust panic is
`none`, and the success value is the mega-check multiscalar multiplication.
The random batching scalar `r` (drawn from the transcript rng and the
thread rng in the source) is an explicit parameter. -/
def VerifierCS.megaValue (cs : VerifierCS) (proof : R1CSProof)
    (C1_prime C2_prime C : List RistrettoPoint) (r : Scalar) (o : ChalOracle) :
    Option (Except R1CSError RistrettoPoint) :=
  let n := cs.num_vars
  let padded_n := cs.num_inputs
  let k_fold := proof.ipp_proof.k
  if padded_n < n then none
  else
    let pad := padded_n - n
    if cs.bp_gens.gens_capacity < padded_n then
      some (.error R1CSError.InvalidGeneratorsLength)
    else
      let ch := vChallengeStage cs proof o
      let flat := flattened_constraints cs ch.z
      let wL := flat.1
      let wR := flat.2.1
      let wO := flat.2.2.1
      let wV := flat.2.2.2.1
      let wc := flat.2.2.2.2
      match K_BulletProof.verification_scalars proof.ipp_proof padded_n ch.t o with
      | none => none
      | some (.error _) => some (.error R1CSError.VerificationError)
      | some (.ok ((s_g_cir, s_h_cir, s_Q_cir, s_P_cir, s_U_cir), tk)) =>
        match uDecompressStage k_fold proof.ipp_proof.U_vecs with
        | none => none
        | some none => some (.error R1CSError.VerificationError)
        | some (some U_points_decompressed_cir) =>
          let y_inv := Scalar.invert ch.y
          let y_inv_vec := exp_iter y_inv padded_n
          let yneg_wR := List.zipWith (fun wRi yi => wRi * yi) wR y_inv_vec ++
            List.replicate pad (0 : Scalar)
          let delta := inner_product (yneg_wR.take n) wL
          let g_scalars := List.zipWith (fun sg ywr => sg - ch.x * ywr * s_P_cir)
            s_g_cir yneg_wR
          let rC := wV
          let wLp := wL ++ List.replicate pad (0 : Scalar)
          let wOp := wO ++ List.replicate pad (0 : Scalar)
          let h_scalars := List.zipWith (fun t3 rCi =>
            t3.1.1.2 * t3.1.1.1 +
              (t3.1.1.2 * (ch.x * t3.1.2 + t3.2) - 1) * (-s_P_cir) +
              t3.1.1.2 * ch.x_ipp * (-s_P_cir) * rCi)
            (((s_h_cir.zip y_inv_vec).zip wLp).zip wOp) rC
          let xx := ch.x * ch.x
          let rxx := r * xx
          let xxx := ch.x * xx
          let r2 := r * r
          let T_scalars := [r * ch.x, r * xx, rxx * ch.x, rxx * xx, rxx * xxx,
            rxx * xx * xx]
          let expected_ip := proof.t_x + ch.x_ipp * proof.t_cross +
            ch.x_ipp * ch.x_ipp * proof.tc_x
          let B_scalar := ch.w_agg * s_Q_cir - ch.w_agg * expected_ip * s_P_cir +
            r * (xx * (wc + delta) - proof.t_x) - r2 * proof.tc_x
          let B_blinding_scalar := ch.x_ipp * proof.ec_blinding * s_P_cir +
            proof.e_blinding * s_P_cir - r2 * proof.tc_x_blinding - r * proof.t_x_blinding
          let chall_batched_ecp := (challenge_scalar o tk "chall_batched_ecp").1
          let tk2 := (challenge_scalar o tk "chall_batched_ecp").2
          let r3 := r2 * r
          let r4 := r3 * r
          match batched_eCP.verification_scalars proof.ecp_batched padded_n tk2 o with
          | none => none
          | some (.error _) => some (.error R1CSError.VerificationError)
          | some (.ok ((z_s_vec, s_P, s_A_vec), _)) =>
            let s_V_checkS := r4 * (-s_P)
            let s_S_prime_checkS := r4 * ch.x_prime * (-s_P)
            let s_S1_prime := r3 * ch.x_prime * (-s_P)
            let s_S2_prime := r3 * chall_batched_ecp * ch.x_prime * (-s_P)
            let s_B_checkS := s_P * r3 * proof.r_blinding
            let s_C0 := r3 * (-s_P)
            let s_C1 := r3 * chall_batched_ecp * (-s_P)
            let s_B_blinding_checkS := s_P * (r4 * proof.ec_blinding +
              r3 * chall_batched_ecp * proof.r_blinding)
            let final_scalar_V := (-ch.x_ipp * s_P_cir) + s_V_checkS
            let final_scalar_S_prime := (-ch.x_ipp * s_P_cir * ch.x_prime) + s_S_prime_checkS
            let final_scalar_B := B_scalar + s_B_checkS
            let final_scalar_B_blinding := B_blinding_scalar + s_B_blinding_checkS
            let final_g_scalars := List.zipWith (fun gi zi => gi + zi * r4)
              g_scalars z_s_vec
            let k_original := C1_prime.length
            if z_s_vec.length < k_original then none
            else if C.length < 2 then none
            else
              let combined_scalars :=
                [-ch.x * s_P_cir, -(ch.x * ch.x) * s_P_cir, -(ch.x * ch.x * ch.x) * s_P_cir,
                 final_scalar_V, final_scalar_S_prime, final_scalar_B,
                 final_scalar_B_blinding] ++
                final_g_scalars ++ h_scalars ++ s_U_cir.map (fun s => -s) ++
                [r2 * ch.x_prime, r2] ++ T_scalars ++
                [s_S1_prime, s_S2_prime, s_C0, s_C1] ++
                (z_s_vec.take k_original).map (fun zz => zz * r3) ++
                (z_s_vec.take k_original).map (fun zz => zz * r3 * chall_batched_ecp) ++
                s_A_vec.map (fun sA => -sA * r4) ++ s_A_vec.map (fun sA => -sA * r3)
              match collectOption (combinedPointsOpt cs proof C1_prime C2_prime C
                  U_points_decompressed_cir) with
              | none => some (.error R1CSError.VerificationError)
              | some combined_points =>
                some (.ok (vartime_multiscalar_mul combined_scalars combined_points))

/-- `VerifierCS::verify`: compute the mega-check and compare it with the
group identity. -/
def VerifierCS.verify (cs : VerifierCS) (proof : R1CSProof)
    (C1_prime C2_prime C : List RistrettoPoint) (r : Scalar) (o : ChalOracle) :
    Option (Except R1CSError Unit) :=
  match VerifierCS.megaValue cs proof C1_prime C2_prime C r o with
  | none => none
  | some (.error e) => some (.error e)
  | some (.ok mega_check) =>
    if mega_check = 0 then some (.ok ()) else some (.error R1CSError.VerificationError)

/-- The value of the single aggregated multiscalar multiplication, when the
run reaches it with all points decompressed. -/
def VerifierCS.megaPoint (cs : VerifierCS) (proof : R1CSProof)
    (C1_prime C2_prime C : List RistrettoPoint) (r : Scalar) (o : ChalOracle) :
    Option RistrettoPoint :=
  match VerifierCS.megaValue cs proof C1_prime C2_prime C r o with
  | some (.ok v) => some v
  | _ => none

/-- Whether the run got past the structural stages, i.e. reached the
decompression-and-identity checks (no panic, no capacity error). -/
def VerifierCS.reachesChecks (cs : VerifierCS) (proof : R1CSProof)
    (C1_prime C2_prime C : List RistrettoPoint) (r : Scalar) (o : ChalOracle) : Bool :=
  match VerifierCS.megaValue cs proof C1_prime C2_prime C r o with
  | some (.ok _) => true
  | some (.error R1CSError.VerificationError) => true
  | _ => false

/-- Every compressed point stored inside an `R1CSProof` decompresses: the
13 commitment points, all round points of the embedded `K_BulletProof` and
all point pairs of the embedded `batched_eCP`. -/
def R1CSProof.allStoredDecompress (p : R1CSProof) : Bool :=
  p.A_I.decompress.isSome && p.A_O.decompress.isSome && p.S.decompress.isSome &&
  p.T_1.decompress.isSome && p.T_2.decompress.isSome && p.T_3.decompress.isSome &&
  p.T_4.decompress.isSome && p.T_5.decompress.isSome && p.T_6.decompress.isSome &&
  p.S_prime.decompress.isSome && p.T_1_prime.decompress.isSome &&
  p.S1_prime.decompress.isSome && p.S2_prime.decompress.isSome &&
  p.ipp_proof.U_vecs.all (fun rv => rv.all (fun c => c.decompress.isSome)) &&
  p.ecp_batched.A_vecs.all (fun rv =>
    rv.all (fun pr => pr.1.decompress.isSome && pr.2.decompress.isSome))

/-- A successful mega-check run passed both all-or-nothing decompression
collects: the U-point stage and the combined-point stage. -/
theorem megaValue_ok_stages (cs : VerifierCS) (proof : R1CSProof)
    (C1_prime C2_prime C : List RistrettoPoint) (r : Scalar) (o : ChalOracle)
    (v : RistrettoPoint)
    (h : VerifierCS.megaValue cs proof C1_prime C2_prime C r o = some (.ok v)) :
    ∃ U_pts pts, uDecompressStage proof.ipp_proof.k proof.ipp_proof.U_vecs =
        some (some U_pts) ∧
      collectOption (combinedPointsOpt cs proof C1_prime C2_prime C U_pts) = some pts := by
  simp only [VerifierCS.megaValue] at h
  split at h
  · simp at h
  · split at h
    · simp at h
    · split at h
      · simp at h
      · simp at h
      · split at h
        · simp at h
        · simp at h
        · rename_i U_pts hu
          split at h
          · simp at h
          · simp at h
          · split at h
            · simp at h
            · split at h
              · simp at h
              · split at h
                · simp at h
                · rename_i pts hcol
                  exact ⟨U_pts, pts, hu, hcol⟩

/-- If the run passed both decompression collects and the stored rounds
have the expected per-round width, then every stored compressed point of
the proof decompresses. -/
theorem allStored_of_stages (cs : VerifierCS) (proof : R1CSProof)
    (C1_prime C2_prime C : List RistrettoPoint) (U_pts pts : List RistrettoPoint)
    (hU : ∀ rv ∈ proof.ipp_proof.U_vecs,
      rv.length = usize_two_k_sub_two proof.ipp_proof.k)
    (hu : uDecompressStage proof.ipp_proof.k proof.ipp_proof.U_vecs = some (some U_pts))
    (hcol : collectOption (combinedPointsOpt cs proof C1_prime C2_prime C U_pts) =
      some pts) :
    proof.allStoredDecompress = true := by
  have hmem := collectOption_isSome _ _ hcol
  simp only [uDecompressStage] at hu
  split at hu
  · have hu2 := Option.some.inj hu
    have hflat := collectOption_isSome _ _ hu2
    have hUall : proof.ipp_proof.U_vecs.all
        (fun rv => rv.all (fun c => c.decompress.isSome)) = true := by
      simp only [List.all_eq_true]
      intro rv hrv c hc
      have htake : rv.take (usize_two_k_sub_two proof.ipp_proof.k) = rv := by
        rw [← hU rv hrv, List.take_length]
      apply hflat
      apply List.mem_map_of_mem
      exact List.mem_flatten.mpr ⟨rv.take (usize_two_k_sub_two proof.ipp_proof.k),
        List.mem_map_of_mem _ hrv, by rw [htake]; exact hc⟩
    have hAvall : proof.ecp_batched.A_vecs.all (fun rv =>
        rv.all (fun pr => pr.1.decompress.isSome && pr.2.decompress.isSome)) = true := by
      simp only [List.all_eq_true]
      intro rv hrv pr hpr
      have h1 : pr ∈ proof.ecp_batched.A_vecs.flatten :=
        List.mem_flatten.mpr ⟨rv, hrv, hpr⟩
      rw [Bool.and_eq_true]
      constructor
      · refine hmem _ ?_
        simp only [combinedPointsOpt, List.mem_append]
        have h2 := List.mem_map_of_mem (fun A => A.1.decompress) h1
        tauto
      · refine hmem _ ?_
        simp only [combinedPointsOpt, List.mem_append]
        have h2 := List.mem_map_of_mem (fun A => A.2.decompress) h1
        tauto
    have h01 : proof.A_I.decompress.isSome := hmem _ (by simp [combinedPointsOpt])
    have h02 : proof.A_O.decompress.isSome := hmem _ (by simp [combinedPointsOpt])
    have h03 : proof.S.decompress.isSome := hmem _ (by simp [combinedPointsOpt])
    have h04 : proof.T_1.decompress.isSome := hmem _ (by simp [combinedPointsOpt])
    have h05 : proof.T_2.decompress.isSome := hmem _ (by simp [combinedPointsOpt])
    have h06 : proof.T_3.decompress.isSome := hmem _ (by simp [combinedPointsOpt])
    have h07 : proof.T_4.decompress.isSome := hmem _ (by simp [combinedPointsOpt])
    have h08 : proof.T_5.decompress.isSome := hmem _ (by simp [combinedPointsOpt])
    have h09 : proof.T_6.decompress.isSome := hmem _ (by simp [combinedPointsOpt])
    have h10 : proof.S_prime.decompress.isSome := hmem _ (by simp [combinedPointsOpt])
    have h11 : proof.T_1_prime.decompress.isSome := hmem _ (by simp [combinedPointsOpt])
    have h12 : proof.S1_prime.decompress.isSome := hmem _ (by simp [combinedPointsOpt])
    have h13 : proof.S2_prime.decompress.isSome := hmem _ (by simp [combinedPointsOpt])
    simp only [R1CSProof.allStoredDecompress, h01, h02, h03, h04, h05, h06, h07, h08,
      h09, h10, h11, h12, h13, hUall, hAvall, Bool.and_self]
  · simp at hu

/-- The successful-MSM extraction agrees with the staged run. -/
theorem megaPoint_eq_some (cs : VerifierCS) (proof : R1CSProof)
    (C1_prime C2_prime C : List RistrettoPoint) (r : Scalar) (o : ChalOracle)
    (v : RistrettoPoint) :
    VerifierCS.megaPoint cs proof C1_prime C2_prime C r o = some v ↔
      VerifierCS.megaValue cs proof C1_prime C2_prime C r o = some (.ok v) := by
  unfold VerifierCS.megaPoint
  cases hm : VerifierCS.megaValue cs proof C1_prime C2_prime C r o with
  | none => simp
  | some e =>
    cases e with
    | error err => simp
    | ok mc => simp

/-- C1: `VerifierCS::verify` returns `Ok` exactly when the single
aggregated multiscalar multiplication (the mega-check) evaluates to the
group identity; on any run that returns `Ok` — given rounds of the stored
width, so that the verifier walks every stored round point — every
compressed point stored in the proof decompressed successfully; a
non-identity mega-check yields `VerificationError`; and a run that reaches
the decompression-and-identity checks with some stored point failing to
decompress yields `VerificationError`, never `Ok` — there is no
partial-success outcome. -/
theorem verify_ok_characterization (cs : VerifierCS) (proof : R1CSProof)
    (C1_prime C2_prime C : List RistrettoPoint) (r : Scalar) (o : ChalOracle)
    (hU : ∀ rv ∈ proof.ipp_proof.U_vecs,
      rv.length = usize_two_k_sub_two proof.ipp_proof.k) :
    (VerifierCS.verify cs proof C1_prime C2_prime C r o = some (.ok ()) ↔
      VerifierCS.megaPoint cs proof C1_prime C2_prime C r o = some 0) ∧
    (∀ v, VerifierCS.megaPoint cs proof C1_prime C2_prime C r o = some v →
      proof.allStoredDecompress = true) ∧
    (∀ v, VerifierCS.megaPoint cs proof C1_prime C2_prime C r o = some v → v ≠ 0 →
      VerifierCS.verify cs proof C1_prime C2_prime C r o =
        some (.error R1CSError.VerificationError)) ∧
    (VerifierCS.reachesChecks cs proof C1_prime C2_prime C r o = true →
      proof.allStoredDecompress = false →
      VerifierCS.verify cs proof C1_prime C2_prime C r o =
        some (.error R1CSError.VerificationError)) := by
  have hB : ∀ v, VerifierCS.megaValue cs proof C1_prime C2_prime C r o =
      some (.ok v) → proof.allStoredDecompress = true := by
    intro v hv
    obtain ⟨U_pts, pts, hu, hcol⟩ :=
      megaValue_ok_stages cs proof C1_prime C2_prime C r o v hv
    exact allStored_of_stages cs proof C1_prime C2_prime C U_pts pts hU hu hcol
  refine ⟨?_, ?_, ?_, ?_⟩
  · unfold VerifierCS.verify VerifierCS.megaPoint
    cases hm : VerifierCS.megaValue cs proof C1_prime C2_prime C r o with
    | none => simp
    | some e =>
      cases e with
      | error err => simp
      | ok mc =>
        by_cases h0 : mc = 0
        · subst h0; simp
        · simp [h0]
  · intro v hv
    exact hB v ((megaPoint_eq_some cs proof C1_prime C2_prime C r o v).mp hv)
  · intro v hv hne
    have hmv := (megaPoint_eq_some cs proof C1_prime C2_prime C r o v).mp hv
    unfold VerifierCS.verify
    rw [hmv]
    simp [hne]
  · intro hreach hfalse
    unfold VerifierCS.reachesChecks at hreach
    cases hm : VerifierCS.megaValue cs proof C1_prime C2_prime C r o with
    | none => rw [hm] at hreach; simp at hreach
    | some e =>
      cases e with
      | error err =>
        cases err with
        | FormatError => rw [hm] at hreach; simp at hreach
        | InvalidGeneratorsLength => rw [hm] at hreach; simp at hreach
        | VerificationError =>
          unfold VerifierCS.verify
          rw [hm]
      | ok mc =>
        rw [hB mc hm] at hfalse
        simp at hfalse

/-- An all-identity verifier state: one generator pair, one committed
input, no constraints, no variables. -/
def zeroVerifierCS : VerifierCS :=
  { bp_gens := ⟨1, [0], [0]⟩, pc_gens := ⟨0, 0⟩, transcript := [],
    constraints := [], num_vars := 0, V := [RistrettoPoint.compress 0],
    num_inputs := 1 }

/-- An all-identity proof with depth-0 embedded arguments of arity 2. -/
def zeroR1CSProof : R1CSProof :=
  { A_I := RistrettoPoint.compress 0, A_O := RistrettoPoint.compress 0,
    S := RistrettoPoint.compress 0, T_1 := RistrettoPoint.compress 0,
    T_2 := RistrettoPoint.compress 0, T_3 := RistrettoPoint.compress 0,
    T_4 := RistrettoPoint.compress 0, T_5 := RistrettoPoint.compress 0,
    T_6 := RistrettoPoint.compress 0, t_x := 0, t_x_blinding := 0,
    e_blinding := 0, ipp_proof := ⟨2, [], [0], [0]⟩,
    S_prime := RistrettoPoint.compress 0, T_1_prime := RistrettoPoint.compress 0,
    S1_prime := RistrettoPoint.compress 0, S2_prime := RistrettoPoint.compress 0,
    tc_x := 0, tc_x_blinding := 0, ec_blinding := 0, t_cross := 0,
    r_blinding := 0, ecp_batched := ⟨2, [], [0]⟩ }

/-- Witness for C1: the characterization instantiated at the all-identity
verifier state and proof (no stored rounds, so the width hypothesis is
vacuous). -/
theorem verify_ok_characterization_witness :
    (∀ rv ∈ zeroR1CSProof.ipp_proof.U_vecs,
      rv.length = usize_two_k_sub_two zeroR1CSProof.ipp_proof.k) ∧
    ((VerifierCS.verify zeroVerifierCS zeroR1CSProof [] [] [0, 0] 0
        (fun _ _ => 1) = some (.ok ()) ↔
      VerifierCS.megaPoint zeroVerifierCS zeroR1CSProof [] [] [0, 0] 0
        (fun _ _ => 1) = some 0) ∧
    (∀ v, VerifierCS.megaPoint zeroVerifierCS zeroR1CSProof [] [] [0, 0] 0
        (fun _ _ => 1) = some v →
      zeroR1CSProof.allStoredDecompress = true) ∧
    (∀ v, VerifierCS.megaPoint zeroVerifierCS zeroR1CSProof [] [] [0, 0] 0
        (fun _ _ => 1) = some v → v ≠ 0 →
      VerifierCS.verify zeroVerifierCS zeroR1CSProof [] [] [0, 0] 0
        (fun _ _ => 1) = some (.error R1CSError.VerificationError)) ∧
    (VerifierCS.reachesChecks zeroVerifierCS zeroR1CSProof [] [] [0, 0] 0
        (fun _ _ => 1) = true →
      zeroR1CSProof.allStoredDecompress = false →
      VerifierCS.verify zeroVerifierCS zeroR1CSProof [] [] [0, 0] 0
        (fun _ _ => 1) = some (.error R1CSError.VerificationError))) :=
  ⟨by simp [zeroR1CSProof],
   verify_ok_characterization zeroVerifierCS zeroR1CSProof [] [] [0, 0] 0
     (fun _ _ => 1) (by simp [zeroR1CSProof])⟩
